import Mathlib

/-!
# Verification of the FizixLabWebGPU simulation core

A shallow embedding over exact rationals of the parts of the engine that the
checked properties concern: the 2D vector kernel (`src/math/Vec2.hpp`,
`src/math/Math.hpp`), AABBs and the circle intersection tests
(`src/collision/Collisions.cpp`), the broad-phase pair builder
(`src/collision/CollisionPipeline.cpp`), the positional separation and
friction-coefficient resolution of the impulse solver
(`src/collision/CollisionSolver.cpp`), the rigid-body integrator
(`src/physics/Rigidbody.cpp`), and the snapshot / adaptive-iteration logic of
the world loop (`src/core/World.cpp`, `src/core/Snapshot.hpp`).

Modelling conventions:
* C++ `float` arithmetic is embedded as exact arithmetic on `ℚ`.
* Euclidean lengths (`Vec2::Length`, i.e. a square root) are irrational over
  `ℚ` in general, so a function that consumes such a length receives it as an
  explicit argument; every theorem about such a function carries the
  hypotheses `0 ≤ len` and `len * len = (the corresponding squared length)`,
  which pin the argument to the unique exact value the C++ code computes.
* `std::vector` becomes `List`, indices stay `ℕ`, C++ `int` becomes `ℤ`.
* The unspecified iteration order of `std::unordered_map` in the broad phase
  is modelled by a deterministic enumeration of the occupied cell keys; all
  properties proved about the pair list are order-independent memberships.
-/

namespace Fizix

/-- Embedding of `math::Vec2` (src/math/Vec2.hpp): a 2D vector with exact
rational components standing for the C++ floats. -/
structure Vec2 where
  x : ℚ
  y : ℚ
  deriving DecidableEq, Repr

def Vec2.add (a b : Vec2) : Vec2 := ⟨a.x + b.x, a.y + b.y⟩

def Vec2.sub (a b : Vec2) : Vec2 := ⟨a.x - b.x, a.y - b.y⟩

/-- `Vec2::Negate`. -/
def Vec2.neg (a : Vec2) : Vec2 := ⟨-a.x, -a.y⟩

/-- `Vec2::operator*(float)`: componentwise scaling. -/
def Vec2.smul (a : Vec2) (k : ℚ) : Vec2 := ⟨a.x * k, a.y * k⟩

/-- `Vec2::Dot`. -/
def Vec2.dot (a b : Vec2) : ℚ := a.x * b.x + a.y * b.y

/-- `Vec2::Cross`. -/
def Vec2.cross (a b : Vec2) : ℚ := a.x * b.y - a.y * b.x

/-- `Vec2::LengthSquared`. -/
def Vec2.lengthSquared (a : Vec2) : ℚ := a.x * a.x + a.y * a.y

/-- `Vec2::DistanceSquared`. -/
def Vec2.distanceSquared (a b : Vec2) : ℚ :=
  (a.x - b.x) * (a.x - b.x) + (a.y - b.y) * (a.y - b.y)

/-- `Vec2::Normalize`, with the Euclidean length of `v` supplied exactly as
`len` (see the header comment).  The C++ code checks `len == 0` and returns
the zero vector in that case instead of dividing. -/
def Vec2.normalizeWith (v : Vec2) (len : ℚ) : Vec2 :=
  if len = 0 then ⟨0, 0⟩ else ⟨v.x / len, v.y / len⟩

/-- `Vec2::operator/(float)` (componentwise; the C++ throws on a zero factor,
which no call site reaches). -/
def Vec2.divScalar (a : Vec2) (k : ℚ) : Vec2 := ⟨a.x / k, a.y / k⟩

/-- `math::kEpsilon` (src/math/Math.hpp). -/
def kEpsilon : ℚ := 1 / 100000

/-- `math::NearlyEqual` at the default epsilon. -/
def NearlyEqual (a b : ℚ) : Bool := if |a - b| ≤ kEpsilon then true else false

/-- `math::NearlyEqualVec` at the default epsilon. -/
def NearlyEqualVec (a b : Vec2) : Bool := NearlyEqual a.x b.x && NearlyEqual a.y b.y

/-- Embedding of `collision::AABB` (src/collision/AABB.hpp). -/
structure AABB where
  min : Vec2
  max : Vec2
  deriving DecidableEq, Repr

/-- `collision::IntersectAABBs` (src/collision/Collisions.cpp, lines 200-209):
strict overlap on both axes. -/
def IntersectAABBs (a b : AABB) : Bool :=
  if a.max.x ≤ b.min.x ∨ b.max.x ≤ a.min.x ∨ a.max.y ≤ b.min.y ∨ b.max.y ≤ a.min.y then
    false
  else
    true

/-- Embedding of `collision::HitInfo` (src/collision/Collisions.hpp):
defaults `result = false`, `normal = (0,0)`, `depth = 0`. -/
structure HitInfo where
  result : Bool := false
  normal : Vec2 := ⟨0, 0⟩
  depth : ℚ := 0
  deriving DecidableEq, Repr

/-- `collision::IntersectCircles` (src/collision/Collisions.cpp, lines
793-814).  `dist` is the exact Euclidean distance between the centers
(`std::sqrt(distanceSq)` in the C++), supplied per the header convention. -/
def IntersectCircles (centerA : Vec2) (radiusA : ℚ) (centerB : Vec2) (radiusB : ℚ)
    (dist : ℚ) : HitInfo :=
  let radii := radiusA + radiusB
  let radiiSq := radii * radii
  let distanceSq := Vec2.distanceSquared centerA centerB
  if radiiSq ≤ distanceSq then
    {}
  else
    { result := true
      normal := if 0 < dist then (centerB.sub centerA).smul (1 / dist) else ⟨1, 0⟩
      depth := radii - dist }

/-- `physics::RigidbodyType` (src/physics/Rigidbody.hpp). -/
inductive RigidbodyType where
  | Static
  | Dynamic
  deriving DecidableEq, Repr

/-- `physics::ForceType` (src/physics/Rigidbody.hpp). -/
inductive ForceType where
  | Normal
  | Frictional
  | Gravitational
  | Tension
  | Apply
  deriving DecidableEq, Repr

/-- `physics::ForceInfo`. -/
structure ForceInfo where
  force : Vec2
  forceType : ForceType
  deriving DecidableEq, Repr

/-- The concrete shape subclass of a body (src/shape/): stands for the result
of the `dynamic_cast` checks the pipeline, solver and world loop perform on
the polymorphic `physics::Rigidbody`. -/
inductive ShapeTag where
  | box
  | ball
  | incline
  | canon
  | cannon
  | trigger
  deriving DecidableEq, Repr

/-- Embedding of `physics::Rigidbody` (src/physics/Rigidbody.hpp).  Field
defaults follow the in-class initializers.  `tag` records the dynamic type of
the object (C++ subclassing); `aabb` records the value the virtual
`GetAABB()` returns, treated as data of the body here.  The fields
`frictionImpulseAccum`, `frictionForce` are declared only in the
implementation's usage (Rigidbody.cpp) and are modelled from there. -/
structure Rigidbody where
  pos : Vec2
  linearVel : Vec2
  linearAcc : Vec2
  bodyType : RigidbodyType
  rotation : ℚ := 0
  angularVel : ℚ := 0
  angularAcc : ℚ := 0
  restitution : ℚ := 1 / 2
  netForce : Vec2 := ⟨0, 0⟩
  forces : List ForceInfo := []
  area : ℚ := 1
  inertia : ℚ := 0
  invInertia : ℚ := 0
  density : ℚ := 1
  mass : ℚ := 1
  invMass : ℚ := 0
  staticFriction : ℚ := 0
  kineticFriction : ℚ := 1 / 10
  normalImpulseAccum : Vec2 := ⟨0, 0⟩
  normalForce : Vec2 := ⟨0, 0⟩
  dragForce : Vec2 := ⟨0, 0⟩
  frictionImpulseAccum : Vec2 := ⟨0, 0⟩
  frictionForce : Vec2 := ⟨0, 0⟩
  transformUpdateRequired : Bool := true
  aabbUpdateRequired : Bool := true
  tag : ShapeTag
  aabb : AABB
  deriving DecidableEq, Repr

/-- A zero-valued body used as the out-of-range default for list indexing. -/
def defaultRigidbody : Rigidbody :=
  { pos := ⟨0, 0⟩, linearVel := ⟨0, 0⟩, linearAcc := ⟨0, 0⟩,
    bodyType := RigidbodyType.Static, tag := ShapeTag.box,
    aabb := ⟨⟨0, 0⟩, ⟨0, 0⟩⟩ }

/-- `BodySnapshot` (src/core/Snapshot.hpp). -/
structure BodySnapshot where
  pos : Vec2
  linearVel : Vec2
  linearAcc : Vec2
  rotation : ℚ
  angularVel : ℚ
  deriving DecidableEq, Repr

/-- Zero-valued snapshot entry used as the out-of-range default. -/
def defaultBodySnapshot : BodySnapshot := ⟨⟨0, 0⟩, ⟨0, 0⟩, ⟨0, 0⟩, 0, 0⟩

/-- `World::CaptureSnapshot` (src/core/World.cpp, lines 8-21). -/
def CaptureSnapshot (objects : List Rigidbody) : List BodySnapshot :=
  objects.map fun obj => ⟨obj.pos, obj.linearVel, obj.linearAcc, obj.rotation, obj.angularVel⟩

/-- The loop body of `World::RestoreSnapshot`: overwrite the five kinematic
fields of one live body from one snapshot entry. -/
def restoreBody (obj : Rigidbody) (s : BodySnapshot) : Rigidbody :=
  { obj with pos := s.pos, linearVel := s.linearVel, linearAcc := s.linearAcc,
             rotation := s.rotation, angularVel := s.angularVel }

/-- `World::RestoreSnapshot` (src/core/World.cpp, lines 23-35): the loop runs
for `i < min(snap.size, objects.size)`; bodies beyond that prefix are left
as they are. -/
def RestoreSnapshot (snap : List BodySnapshot) (objects : List Rigidbody) : List Rigidbody :=
  List.zipWith restoreBody objects snap ++ objects.drop snap.length

/-- The five fields `RestoreSnapshot` writes, as one record. -/
def kinematicState (b : Rigidbody) : BodySnapshot :=
  ⟨b.pos, b.linearVel, b.linearAcc, b.rotation, b.angularVel⟩

/-- A body with its five kinematic fields zeroed; two bodies agree on every
non-kinematic field iff their erasures are equal. -/
def eraseKinematic (b : Rigidbody) : Rigidbody :=
  { b with pos := ⟨0, 0⟩, linearVel := ⟨0, 0⟩, linearAcc := ⟨0, 0⟩,
           rotation := 0, angularVel := 0 }

/-- `SimulationConstants::MIN_PHYSICS_ITERATIONS` (src/common/settings.hpp). -/
def MIN_PHYSICS_ITERATIONS : ℤ := 1

/-- `SimulationConstants::MAX_PHYSICS_ITERATIONS` (src/common/settings.hpp). -/
def MAX_PHYSICS_ITERATIONS : ℤ := 128

/-- `SimulationConstants::PIXELS_PER_METER` (src/common/settings.hpp). -/
def PIXELS_PER_METER : ℚ := 100

/-- `PhysicsConstants::GRAVITY` (src/common/settings.hpp). -/
def GRAVITY : ℚ := 981 / 100

/-- `math::Clamp` (src/math/Math.hpp). -/
def clampQ (value lo hi : ℚ) : ℚ :=
  if value < lo then lo else if hi < value then hi else value

/-- `World::ClampIterations` (src/core/World.cpp, lines 37-48). -/
def ClampIterations (value : ℤ) : ℤ :=
  if value < MIN_PHYSICS_ITERATIONS then MIN_PHYSICS_ITERATIONS
  else if MAX_PHYSICS_ITERATIONS < value then MAX_PHYSICS_ITERATIONS
  else value

/-- `CFL_SAFETY_FACTOR` of `World::ComputeAdaptiveIterations`. -/
def CFL_SAFETY_FACTOR : ℚ := 1 / 2

/-- The per-body inputs read by the loop of `World::ComputeAdaptiveIterations`
(src/core/World.cpp, lines 60-96): the body's type, its speed
`linearVel.Length()`, and its size, half the AABB diagonal
`sqrt(width*width + height*height) * 0.5`.  The two lengths are square roots
of the body's state, so they enter the embedding as exact data (header
convention). -/
structure AdaptiveBody where
  bodyType : RigidbodyType
  speed : ℚ
  bodySize : ℚ
  deriving DecidableEq, Repr

/-- `neededIter` of `World::ComputeAdaptiveIterations`:
`ceil(distanceThisFrame / (CFL_SAFETY_FACTOR * bodySize))`. -/
def neededIterations (dtSeconds : ℚ) (b : AdaptiveBody) : ℤ :=
  Int.ceil (b.speed * dtSeconds / (CFL_SAFETY_FACTOR * b.bodySize))

/-- One iteration of the loop of `World::ComputeAdaptiveIterations`: skip
non-dynamic bodies, bodies slower than 1 px/s and degenerate shapes smaller
than 0.1, otherwise raise the accumulator to `neededIter`. -/
def adaptiveStep (dtSeconds : ℚ) (acc : ℤ) (b : AdaptiveBody) : ℤ :=
  if b.bodyType ≠ RigidbodyType.Dynamic then acc
  else if b.speed < 1 then acc
  else if b.bodySize < 1 / 10 then acc
  else max acc (neededIterations dtSeconds b)

/-- `World::ComputeAdaptiveIterations` (src/core/World.cpp, lines 60-96). -/
def ComputeAdaptiveIterations (deltaMs : ℚ) (requestedIterations : ℤ)
    (objects : List AdaptiveBody) : ℤ :=
  let dtSeconds := deltaMs / 1000
  ClampIterations (objects.foldl (adaptiveStep dtSeconds) requestedIterations)

/-- Concrete fast body (speed 100, size 10) for the C2 witness. -/
def cFastBody : AdaptiveBody := ⟨RigidbodyType.Dynamic, 100, 10⟩

/-- Concrete slow body (speed 0.9, size 0.1) for the C2 counterexample: it is
skipped by the `speed < 1.0f` guard. -/
def cSlowBody : AdaptiveBody := ⟨RigidbodyType.Dynamic, 9 / 10, 1 / 10⟩

/-- Truncation toward zero, as the C cast/`std::fmod` quotient behaves. -/
def qTrunc (q : ℚ) : ℤ := if q < 0 then Int.ceil q else Int.floor q

/-- `std::fmod` on exact rationals: `x - trunc(x / y) * y`. -/
def fmodQ (x y : ℚ) : ℚ := x - y * (qTrunc (x / y) : ℚ)

/-- `Rigidbody::Rigidbody` (src/physics/Rigidbody.cpp, lines 32-52): initial
velocity and acceleration are scaled by `PIXELS_PER_METER`, restitution is
clamped to [0,1], a non-positive mass is replaced by 1, and `invMass` is `1/mass`
for non-static bodies and 0 for static ones.  `tag`/`aabb` carry the concrete
subclass data (see `Rigidbody`). -/
def mkRigidbody (position initialLinearVel initialLinearAcc : Vec2)
    (rigidbodyMass restitutionValue : ℚ) (rigidbodyTypeValue : RigidbodyType)
    (tag : ShapeTag) (aabb : AABB) : Rigidbody :=
  let m := if 0 < rigidbodyMass then rigidbodyMass else 1
  { pos := position
    linearVel := initialLinearVel.smul PIXELS_PER_METER
    linearAcc := initialLinearAcc.smul PIXELS_PER_METER
    bodyType := rigidbodyTypeValue
    restitution := clampQ restitutionValue 0 1
    mass := m
    area := 1
    invMass := if rigidbodyTypeValue ≠ RigidbodyType.Static then 1 / m else 0
    tag := tag
    aabb := aabb }

/-- `Rigidbody::UpdateMassProperties` (src/physics/Rigidbody.cpp, lines
54-65).  `inertia` is the value of the virtual `ComputeInertia()` call
(shape-dependent), passed in as data. -/
def UpdateMassProperties (b : Rigidbody) (inertia : ℚ) : Rigidbody :=
  { b with inertia := inertia,
           invInertia :=
             if b.bodyType = RigidbodyType.Static ∨ inertia = 0 then 0 else 1 / inertia }

/-- `Rigidbody::Update` (src/physics/Rigidbody.cpp, lines 72-100): early
return for static bodies; for dynamic bodies, apply the gravity and drag
force generators to `netForce`, integrate with velocity half-steps, wrap the
rotation by `fmod(..., 360)` and reset the per-step forces.  (The C++ `Vec2`
division by `mass` is exact here; the constructor guarantees `mass > 0`.) -/
def RigidbodyUpdate (b : Rigidbody) (deltaMs : ℚ) (iterations : ℤ) : Rigidbody :=
  if b.bodyType = RigidbodyType.Static then b
  else
    let iters : ℤ := if iterations ≤ 0 then 1 else iterations
    let dtSeconds : ℚ := (deltaMs / 1000) / (iters : ℚ)
    let gravityForce : Vec2 := ⟨0, -(b.mass * (GRAVITY * PIXELS_PER_METER))⟩
    let netForce := (b.netForce.add gravityForce).add b.dragForce
    let linearAcc := netForce.divScalar b.mass
    let linearVel1 := b.linearVel.add ((linearAcc.smul dtSeconds).smul (1 / 2))
    let newPos := b.pos.add (linearVel1.smul dtSeconds)
    let linearVel2 := linearVel1.add ((linearAcc.smul dtSeconds).smul (1 / 2))
    let newRotation := fmodQ (b.rotation + b.angularVel * dtSeconds) 360
    { b with pos := newPos, linearVel := linearVel2, linearAcc := linearAcc,
             rotation := newRotation,
             forces := [⟨gravityForce, ForceType.Gravitational⟩],
             netForce := ⟨0, 0⟩, dragForce := ⟨0, 0⟩,
             transformUpdateRequired := true, aabbUpdateRequired := true }

/-- The per-contact velocity update of the normal-impulse apply loop of
`CollisionSolver::ResolveWithRotationAndFriction`
(src/collision/CollisionSolver.cpp, lines 157-172), including the display
accumulation guarded on non-static bodies. -/
def applyNormalImpulse (bodyA bodyB : Rigidbody) (impulse ra rb : Vec2) :
    Rigidbody × Rigidbody :=
  ({ bodyA with
      linearVel := bodyA.linearVel.add (impulse.smul (-bodyA.invMass)),
      angularVel := bodyA.angularVel + -bodyA.invInertia * Vec2.cross ra impulse,
      normalImpulseAccum :=
        if bodyA.bodyType ≠ RigidbodyType.Static then
          bodyA.normalImpulseAccum.add impulse.neg
        else bodyA.normalImpulseAccum },
   { bodyB with
      linearVel := bodyB.linearVel.add (impulse.smul bodyB.invMass),
      angularVel := bodyB.angularVel + bodyB.invInertia * Vec2.cross rb impulse,
      normalImpulseAccum :=
        if bodyB.bodyType ≠ RigidbodyType.Static then
          bodyB.normalImpulseAccum.add impulse
        else bodyB.normalImpulseAccum })

/-- The per-contact velocity update of the friction-impulse apply loop of
`CollisionSolver::ResolveWithRotationAndFriction`
(src/collision/CollisionSolver.cpp, lines 290-310): contacts whose friction
impulse is nearly zero are skipped. -/
def applyFrictionImpulse (bodyA bodyB : Rigidbody) (impulseFriction ra rb : Vec2) :
    Rigidbody × Rigidbody :=
  if NearlyEqualVec impulseFriction ⟨0, 0⟩ then (bodyA, bodyB)
  else
    ({ bodyA with
        linearVel := bodyA.linearVel.add (impulseFriction.smul (-bodyA.invMass)),
        angularVel := bodyA.angularVel + -bodyA.invInertia * Vec2.cross ra impulseFriction,
        frictionImpulseAccum :=
          if bodyA.bodyType ≠ RigidbodyType.Static then
            bodyA.frictionImpulseAccum.add impulseFriction.neg
          else bodyA.frictionImpulseAccum },
     { bodyB with
        linearVel := bodyB.linearVel.add (impulseFriction.smul bodyB.invMass),
        angularVel := bodyB.angularVel + bodyB.invInertia * Vec2.cross rb impulseFriction,
        frictionImpulseAccum :=
          if bodyB.bodyType ≠ RigidbodyType.Static then
            bodyB.frictionImpulseAccum.add impulseFriction
          else bodyB.frictionImpulseAccum })

/-- The binary-search loop of `World::SweptContactCorrection`
(src/core/World.cpp, lines 136-186): fixed `BINARY_STEPS = 10` (the fuel),
early exit once the bracket is narrower than `CONVERGENCE_DELTA = 0.5` px.
`overlapsStatic` abstracts the inner query (`collision::Collide` of the body
placed at the test position against every static, non-trigger body). -/
def sweptSearch (prevPos displacement : Vec2) (dispLen : ℚ)
    (overlapsStatic : Vec2 → Bool) : ℕ → ℚ → ℚ → ℚ × ℚ
  | 0, tLow, tHigh => (tLow, tHigh)
  | n + 1, tLow, tHigh =>
    if (tHigh - tLow) * dispLen < 1 / 2 then (tLow, tHigh)
    else
      let tMid := (tLow + tHigh) / 2
      if overlapsStatic (prevPos.add (displacement.smul tMid)) then
        sweptSearch prevPos displacement dispLen overlapsStatic n tLow tMid
      else
        sweptSearch prevPos displacement dispLen overlapsStatic n tMid tHigh

/-- `World::SweptContactCorrection` (src/core/World.cpp, lines 113-209).
`correctionMag` and `dispLen` are the exact lengths of
`body.pos - integratedPos` and `integratedPos - prevPos` (header convention);
`overlapsStatic` abstracts the static-geometry overlap query. -/
def SweptContactCorrection (body : Rigidbody) (prevPos integratedPos : Vec2)
    (correctionMag dispLen : ℚ) (overlapsStatic : Vec2 → Bool) : Rigidbody :=
  if body.bodyType ≠ RigidbodyType.Dynamic then body
  else
    let solverCorrection := body.pos.sub integratedPos
    if correctionMag < 1 / 2 then body
    else
      let displacement := integratedPos.sub prevPos
      if dispLen < 1 / 1000 then body
      else
        let t := (sweptSearch prevPos displacement dispLen overlapsStatic 10 0 1).1
        let body1 :=
          { body with pos := prevPos.add (displacement.smul t),
                      aabbUpdateRequired := true, transformUpdateRequired := true }
        if 1 / 10000 < correctionMag then
          let surfaceNormal := solverCorrection.smul (1 / correctionMag)
          let velIntoSurface := Vec2.dot body1.linearVel surfaceNormal
          if velIntoSurface < 0 then
            { body1 with linearVel := body1.linearVel.sub (surfaceNormal.smul velIntoSurface) }
          else body1
        else body1

/-- Concrete static body for the C8 witness. -/
def cStaticBody : Rigidbody :=
  { defaultRigidbody with bodyType := RigidbodyType.Static,
                          aabb := ⟨⟨0, 0⟩, ⟨100, 10⟩⟩ }

/-- `CollisionPipeline::cellSize` (src/collision/CollisionPipeline.hpp). -/
def cellSize : ℚ := 200

/-- The C++ `static_cast<std::uint32_t>` of an `int` cell coordinate. -/
def uint32cast (x : ℤ) : ℕ := (x % (2 ^ 32 : ℤ)).toNat

/-- The `cellKey` lambda of `CollisionPipeline::BuildPairs` (lines 36-41):
`(uint64(uint32(x)) << 32) | uint64(uint32(y))`. -/
def cellKey (c : ℤ × ℤ) : ℕ :=
  Nat.lor (uint32cast c.1 * 2 ^ 32) (uint32cast c.2)

/-- The integer interval [lo, hi] as a list, in increasing order. -/
def intRange (lo hi : ℤ) : List ℤ :=
  (List.range (hi + 1 - lo).toNat).map fun k : ℕ => lo + (k : ℤ)

/-- The grid cells an AABB spans: the two nested loops of
`CollisionPipeline::BuildPairs` (lines 50-61) over
`floor(min * inverseCellSize) .. floor(max * inverseCellSize)` on each axis. -/
def cellsOfAABB (box : AABB) : List (ℤ × ℤ) :=
  let minX := Int.floor (box.min.x * (1 / cellSize))
  let maxX := Int.floor (box.max.x * (1 / cellSize))
  let minY := Int.floor (box.min.y * (1 / cellSize))
  let maxY := Int.floor (box.max.y * (1 / cellSize))
  (intRange minX maxX).flatMap fun x => (intRange minY maxY).map fun y => (x, y)

/-- The `collidable` flag of `BuildPairs` (line 29): true unless the body is
a `shape::Canon` (the cannon emitter). -/
def collidableBody (b : Rigidbody) : Bool := decide (b.tag ≠ ShapeTag.canon)

/-- `aabbs[i]` of `BuildPairs`: the cached AABB snapshot taken at entry. -/
def aabbOf (bodies : List Rigidbody) (i : ℕ) : AABB :=
  (bodies.getD i defaultRigidbody).aabb

/-- The `pairKey` of `BuildPairs` (lines 93-95):
`(uint64(minIndex) << 32) | uint64(maxIndex)` (the 64-bit shift wraps). -/
def pairKey (minIndex maxIndex : ℕ) : ℕ :=
  Nat.lor (minIndex * 2 ^ 32 % 2 ^ 64) maxIndex

/-- The occupied grid keys, one per first insertion into the
`std::unordered_map`.  The map's iteration order is unspecified in C++; the
embedding enumerates the distinct keys in a fixed order (every property
proved below is order-independent). -/
def gridKeys (bodies : List Rigidbody) : List ℕ :=
  ((List.range bodies.length).flatMap fun i =>
    if collidableBody (bodies.getD i defaultRigidbody) then
      (cellsOfAABB (aabbOf bodies i)).map cellKey
    else []).dedup

/-- The bucket contents `grid[k]`: index `i` is pushed once per cell of body
`i` whose key is `k`, in increasing order of `i` (the insertion order of the
C++ loops). -/
def cellOccupants (bodies : List Rigidbody) (k : ℕ) : List ℕ :=
  (List.range bodies.length).flatMap fun i =>
    if collidableBody (bodies.getD i defaultRigidbody) then
      ((cellsOfAABB (aabbOf bodies i)).filter fun c => decide (cellKey c = k)).map fun _ => i
    else []

/-- The running state of the pair loop of `BuildPairs`: the `pairSet` hash
set (as the list of inserted keys) and the emitted pair list. -/
structure BPState where
  pairSet : List ℕ
  pairs : List (ℕ × ℕ)
  deriving DecidableEq, Repr

/-- The innermost loop body of `BuildPairs` (lines 80-108): skip
static-static pairs, canonicalize, insert the pair key (skipping the rest if
it was already present), re-test the AABBs and emit. -/
def processPair (bodies : List Rigidbody) (st : BPState) (ij : ℕ × ℕ) : BPState :=
  let bodyA := bodies.getD ij.1 defaultRigidbody
  let bodyB := bodies.getD ij.2 defaultRigidbody
  if bodyA.bodyType = RigidbodyType.Static ∧ bodyB.bodyType = RigidbodyType.Static then
    st
  else
    let minIndex := if ij.1 < ij.2 then ij.1 else ij.2
    let maxIndex := if ij.1 < ij.2 then ij.2 else ij.1
    let key := pairKey minIndex maxIndex
    if key ∈ st.pairSet then st
    else if IntersectAABBs (aabbOf bodies ij.1) (aabbOf bodies ij.2) then
      ⟨key :: st.pairSet, st.pairs ++ [(minIndex, maxIndex)]⟩
    else
      ⟨key :: st.pairSet, st.pairs⟩

/-- All position pairs `(indices[a], indices[b])` with `a < b`, in the order
of the double loop of `BuildPairs` (lines 75-109). -/
def orderedOffsetPairs : List ℕ → List (ℕ × ℕ)
  | [] => []
  | x :: rest => (rest.map fun y => (x, y)) ++ orderedOffsetPairs rest

/-- One grid cell's processing in `BuildPairs` (lines 67-110): cells with
fewer than two occupants are skipped. -/
def processCell (bodies : List Rigidbody) (st : BPState) (indices : List ℕ) : BPState :=
  if indices.length < 2 then st
  else (orderedOffsetPairs indices).foldl (processPair bodies) st

/-- `CollisionPipeline::BuildPairs` (src/collision/CollisionPipeline.cpp,
lines 12-111). -/
def BuildPairs (bodies : List Rigidbody) : List (ℕ × ℕ) :=
  if bodies.length < 2 then []
  else
    ((gridKeys bodies).foldl
      (fun st k => processCell bodies st (cellOccupants bodies k)) ⟨[], []⟩).pairs

/-- An AABB whose min is componentwise at most its max. -/
def wellFormedAABB (box : AABB) : Prop :=
  box.min.x ≤ box.max.x ∧ box.min.y ≤ box.max.y

/-- Concrete static cannon body (excluded from the broad phase) for the C1
counterexample. -/
def cCanonBody : Rigidbody :=
  { defaultRigidbody with tag := ShapeTag.canon,
                          bodyType := RigidbodyType.Static,
                          aabb := ⟨⟨0, 0⟩, ⟨10, 10⟩⟩ }

/-- Concrete dynamic body overlapping the cannon for the C1 counterexample. -/
def cDynOverlap : Rigidbody :=
  { defaultRigidbody with tag := ShapeTag.box,
                          bodyType := RigidbodyType.Dynamic,
                          aabb := ⟨⟨5, 5⟩, ⟨15, 15⟩⟩ }

/-- `collision::ProjectionRange` (src/collision/Collisions.hpp). -/
structure ProjectionRange where
  min : ℚ
  max : ℚ
  deriving DecidableEq, Repr

/-- `collision::ProjectVertices` (src/collision/Collisions.cpp, lines 47-62):
project every vertex onto the axis and track min/max.  The C++ starts the
fold from ±infinity; on a nonempty list that equals folding from the first
projection, which is how the embedding states it (`none` stands for the
empty-list ranges, which no caller constructs). -/
def ProjectVertices (vertices : List Vec2) (axis : Vec2) : Option ProjectionRange :=
  match vertices with
  | [] => none
  | v :: rest =>
    some (rest.foldl
      (fun r u => ⟨min r.min (Vec2.dot u axis), max r.max (Vec2.dot u axis)⟩)
      ⟨Vec2.dot v axis, Vec2.dot v axis⟩)

/-- `collision::ProjectCircle` (src/collision/Collisions.cpp, lines 64-80). -/
def ProjectCircle (center : Vec2) (radius : ℚ) (axis : Vec2) : ProjectionRange :=
  let dirRad := axis.smul radius
  let p1 := center.add dirRad
  let p2 := center.sub dirRad
  let a := Vec2.dot p1 axis
  let b := Vec2.dot p2 axis
  if b < a then ⟨b, a⟩ else ⟨a, b⟩

/-- The loop of `collision::FindClosestPointOnPolygon`: current index, best
index so far and best squared distance (`none` = infinity). -/
def closestSearch (circleCenter : Vec2) :
    List Vec2 → ℕ → ℤ × Option ℚ → ℤ × Option ℚ
  | [], _, best => best
  | v :: rest, i, best =>
    let d := Vec2.distanceSquared v circleCenter
    closestSearch circleCenter rest (i + 1)
      (match best.2 with
       | none => ((i : ℤ), some d)
       | some m => if d < m then ((i : ℤ), some d) else best)

/-- `collision::FindClosestPointOnPolygon` (src/collision/Collisions.cpp,
lines 82-98): the first vertex index at minimal squared distance, `-1` on an
empty list. -/
def FindClosestPointOnPolygon (circleCenter : Vec2) (vertices : List Vec2) : ℤ :=
  (closestSearch circleCenter vertices 0 (-1, none)).1

/-- The closest-vertex candidate axis of `collision::IntersectCirclePolygon`
(src/collision/Collisions.cpp, lines 551-556): the direction from the circle
center to the closest polygon vertex, or the fallback axis (1,0) when the
two nearly coincide.  `closestLen` is the exact length of `cp - circleCenter`
(header convention). -/
def closestVertexAxis (circleCenter : Vec2) (vertices : List Vec2)
    (closestLen : ℚ) : Vec2 :=
  let cp := vertices.getD (FindClosestPointOnPolygon circleCenter vertices).toNat ⟨0, 0⟩
  let closestDir := cp.sub circleCenter
  if NearlyEqualVec closestDir ⟨0, 0⟩ then ⟨1, 0⟩
  else closestDir.normalizeWith closestLen

/-- The perpendicular of polygon edge `i` (the un-normalized SAT axis
`Vec2(-edge.y, edge.x)` of the loop at lines 526-549). -/
def edgePerp (vertices : List Vec2) (i : ℕ) : Vec2 :=
  let va := vertices.getD i ⟨0, 0⟩
  let vb := vertices.getD ((i + 1) % vertices.length) ⟨0, 0⟩
  ⟨-(vb.sub va).y, (vb.sub va).x⟩

/-- The normalized edge axes of the SAT loop; `edgeLens` carries the exact
edge lengths (header convention). -/
def edgeAxes (vertices : List Vec2) (edgeLens : List ℚ) : List Vec2 :=
  (List.range vertices.length).map fun i =>
    Vec2.normalizeWith (edgePerp vertices i) (edgeLens.getD i 0)

/-- The `if (axisDepth < hit.depth)` update of the SAT loop: replace the
tracked (depth, normal) when the new axis has smaller depth (the `none`
depth is the C++ initial infinity). -/
def satUpdate (acc : Option ℚ × Vec2) (axisDepth : ℚ) (axis : Vec2) :
    Option ℚ × Vec2 :=
  match acc.1 with
  | none => (some axisDepth, axis)
  | some d => if axisDepth < d then (some axisDepth, axis) else acc

/-- The axis loop of `collision::IntersectCirclePolygon`: test each candidate
axis, exit with `none` as soon as a separating axis is found (`result =
false` in the C++), otherwise track the axis of minimum overlap depth. -/
def satAxes (circleCenter : Vec2) (circleRadius : ℚ) (vertices : List Vec2) :
    List Vec2 → Option ℚ × Vec2 → Option (Option ℚ × Vec2)
  | [], acc => some acc
  | axis :: rest, acc =>
    match ProjectVertices vertices axis with
    | none => none
    | some projA =>
      let projB := ProjectCircle circleCenter circleRadius axis
      if projB.max ≤ projA.min ∨ projA.max ≤ projB.min then none
      else
        satAxes circleCenter circleRadius vertices rest
          (satUpdate acc (min (projB.max - projA.min) (projA.max - projB.min)) axis)

/-- `collision::IntersectCirclePolygon` (src/collision/Collisions.cpp, lines
516-583): SAT over the edge axes followed by the closest-vertex axis, then
the normal is flipped to point from the circle toward the polygon.  On the
separated (`result = false`) path the C++ returns whatever normal/depth were
tracked so far (depth possibly still infinity); the embedding returns the
zero defaults there, a benign difference since only `result` is meaningful
on that path. -/
def IntersectCirclePolygon (circleCenter : Vec2) (circleRadius : ℚ)
    (polygonCenter : Vec2) (vertices : List Vec2)
    (edgeLens : List ℚ) (closestLen : ℚ) : HitInfo :=
  let axes :=
    edgeAxes vertices edgeLens ++ [closestVertexAxis circleCenter vertices closestLen]
  match satAxes circleCenter circleRadius vertices axes (none, ⟨0, 0⟩) with
  | none => {}
  | some best =>
    let direction := polygonCenter.sub circleCenter
    let normal := if Vec2.dot direction best.2 < 0 then best.2.neg else best.2
    { result := true, normal := normal, depth := best.1.getD 0 }

/-- Concrete snapshot list used by the witness below. -/
def sampleSnap : List BodySnapshot := [⟨⟨1, 2⟩, ⟨3, 4⟩, ⟨5, 6⟩, 7, 8⟩]

/-- Concrete two-body list used by the witness below. -/
def sampleBodies : List Rigidbody :=
  [{ defaultRigidbody with pos := ⟨10, 10⟩, bodyType := RigidbodyType.Dynamic, mass := 2 },
   { defaultRigidbody with pos := ⟨20, 20⟩ }]

/-- `PhysicsConstants::MAX_PENETRATION_CORRECTION` (src/common/settings.hpp). -/
def MAX_PENETRATION_CORRECTION : ℚ := 5

/-- `Rigidbody::Translate` (src/physics/Rigidbody.cpp, lines 102-107). -/
def translateBody (b : Rigidbody) (amount : Vec2) : Rigidbody :=
  { b with pos := b.pos.add amount,
           transformUpdateRequired := true, aabbUpdateRequired := true }

/-- The correction vector computed by `CollisionSolver::SeparateBodies`: the
MTV, capped at `MAX_PENETRATION_CORRECTION`.  `mtvLength` is the exact
`mtv.Length()` (header convention). -/
def cappedCorrection (mtv : Vec2) (mtvLength : ℚ) : Vec2 :=
  if MAX_PENETRATION_CORRECTION < mtvLength then
    mtv.smul (MAX_PENETRATION_CORRECTION / mtvLength)
  else
    mtv

/-- `CollisionSolver::SeparateBodies` (src/collision/CollisionSolver.cpp,
lines 41-61). -/
def SeparateBodies (bodyA bodyB : Rigidbody) (mtv : Vec2) (mtvLength : ℚ) :
    Rigidbody × Rigidbody :=
  let correction := cappedCorrection mtv mtvLength
  if bodyA.bodyType = RigidbodyType.Static then
    (bodyA, translateBody bodyB correction)
  else if bodyB.bodyType = RigidbodyType.Static then
    (translateBody bodyA correction.neg, bodyB)
  else
    (translateBody bodyA (correction.neg.divScalar 2),
     translateBody bodyB (correction.divScalar 2))

/-- Concrete dynamic body of inverse mass 1 for the counterexample below. -/
def cBodyA : Rigidbody :=
  { defaultRigidbody with bodyType := RigidbodyType.Dynamic, mass := 1, invMass := 1 }

/-- Concrete dynamic body of inverse mass 3 for the counterexample below. -/
def cBodyB : Rigidbody :=
  { defaultRigidbody with bodyType := RigidbodyType.Dynamic, mass := 1 / 3, invMass := 3 }

/-- The friction-coefficient selection at the head of
`CollisionSolver::ResolveWithRotationAndFriction`
(src/collision/CollisionSolver.cpp, lines 75-105).  The `dynamic_cast` tests
against `shape::Incline` become tag tests.  `geoStatic`/`geoKinetic` are the
exact geometric means `sqrt(A.staticFriction * B.staticFriction)` and
`sqrt(A.kineticFriction * B.kineticFriction)` the last branch computes
(header convention for square roots). -/
def resolveFrictionCoefficients (bodyA bodyB : Rigidbody)
    (geoStatic geoKinetic : ℚ) : ℚ × ℚ :=
  if bodyA.tag = ShapeTag.incline ∧ bodyB.tag = ShapeTag.incline then
    (max bodyA.staticFriction bodyB.staticFriction,
     max bodyA.kineticFriction bodyB.kineticFriction)
  else if bodyA.tag = ShapeTag.incline then
    (bodyA.staticFriction, bodyA.kineticFriction)
  else if bodyB.tag = ShapeTag.incline then
    (bodyB.staticFriction, bodyB.kineticFriction)
  else
    (geoStatic, geoKinetic)

/-- Concrete incline body (coefficients 1/2, 1/4) for the witness below. -/
def cIncline : Rigidbody :=
  { defaultRigidbody with
      tag := ShapeTag.incline, staticFriction := 1 / 2, kineticFriction := 1 / 4 }

/-- Concrete box body (coefficients 1/8, 1/9) for the witness below. -/
def cBox : Rigidbody :=
  { defaultRigidbody with
      tag := ShapeTag.box, staticFriction := 1 / 8, kineticFriction := 1 / 9 }

/-- Concrete ball body (coefficients 1/2, 1/4) for the witness below. -/
def cBall : Rigidbody :=
  { defaultRigidbody with
      tag := ShapeTag.ball, staticFriction := 1 / 2, kineticFriction := 1 / 4 }

/-- Concrete dynamic box overlapping `cDynOverlap` for the C1 witness. -/
def cDynA : Rigidbody :=
  { defaultRigidbody with bodyType := RigidbodyType.Dynamic,
                          aabb := ⟨⟨0, 0⟩, ⟨10, 10⟩⟩ }

/-- The vertex projection range on a nonempty polygon, as the SAT loop
computes it (proof-side spelling of `ProjectVertices` without the `Option`). -/
def projAOf (vertices : List Vec2) (axis : Vec2) : ProjectionRange :=
  match vertices with
  | [] => ⟨0, 0⟩
  | v :: rest =>
    rest.foldl
      (fun r u => ⟨min r.min (Vec2.dot u axis), max r.max (Vec2.dot u axis)⟩)
      ⟨Vec2.dot v axis, Vec2.dot v axis⟩

lemma zipWith_restore_capture (objects : List Rigidbody) :
    List.zipWith restoreBody objects (CaptureSnapshot objects) = objects := by
  induction objects with
  | nil => rfl
  | cons o rest ih =>
    show restoreBody o _ :: List.zipWith restoreBody rest (CaptureSnapshot rest) = o :: rest
    rw [ih]
    rfl

/-- C5: restoring a freshly captured snapshot is a no-op on the body list
(hence on every body's position, velocities, rotation and angular velocity). -/
theorem restoreSnapshot_captureSnapshot (objects : List Rigidbody) :
    RestoreSnapshot (CaptureSnapshot objects) objects = objects := by
  unfold RestoreSnapshot
  rw [zipWith_restore_capture]
  have hlen : (CaptureSnapshot objects).length = objects.length := by
    simp [CaptureSnapshot]
  rw [hlen, List.drop_length, List.append_nil]

lemma restoreSnapshot_getD (snap : List BodySnapshot) (objects : List Rigidbody) (i : ℕ) :
    (RestoreSnapshot snap objects).getD i defaultRigidbody =
      if i < min snap.length objects.length then
        restoreBody (objects.getD i defaultRigidbody) (snap.getD i defaultBodySnapshot)
      else
        objects.getD i defaultRigidbody := by
  induction objects generalizing snap i with
  | nil =>
    simp [RestoreSnapshot]
  | cons o rest ih =>
    cases snap with
    | nil => simp [RestoreSnapshot]
    | cons s srest =>
      have hcons : RestoreSnapshot (s :: srest) (o :: rest) =
          restoreBody o s :: RestoreSnapshot srest rest := rfl
      rw [hcons]
      cases i with
      | zero => simp
      | succ k =>
        have : (restoreBody o s :: RestoreSnapshot srest rest).getD (k + 1) defaultRigidbody =
            (RestoreSnapshot srest rest).getD k defaultRigidbody := rfl
        rw [this, ih]
        have hmin : k + 1 < min (s :: srest).length (o :: rest).length ↔
            k < min srest.length rest.length := by
          simp only [List.length_cons]
          omega
        by_cases hk : k < min srest.length rest.length
        · rw [if_pos hk, if_pos (hmin.mpr hk)]
          rfl
        · rw [if_neg hk, if_neg (fun hc => hk (hmin.mp hc))]
          rfl

lemma restoreSnapshot_length (snap : List BodySnapshot) (objects : List Rigidbody) :
    (RestoreSnapshot snap objects).length = objects.length := by
  simp [RestoreSnapshot]
  omega

/-- C6: when snapshot and live list lengths differ, `RestoreSnapshot` writes
the kinematic fields of exactly the first `min` bodies from the snapshot,
changes no non-kinematic field there, leaves every body past the prefix
untouched, and keeps the body count. -/
theorem restoreSnapshot_truncates (snap : List BodySnapshot) (objects : List Rigidbody)
    (_hne : snap.length ≠ objects.length) :
    (RestoreSnapshot snap objects).length = objects.length ∧
    (∀ i, i < min snap.length objects.length →
      kinematicState ((RestoreSnapshot snap objects).getD i defaultRigidbody) =
        snap.getD i defaultBodySnapshot ∧
      eraseKinematic ((RestoreSnapshot snap objects).getD i defaultRigidbody) =
        eraseKinematic (objects.getD i defaultRigidbody)) ∧
    (∀ i, min snap.length objects.length ≤ i →
      (RestoreSnapshot snap objects).getD i defaultRigidbody =
        objects.getD i defaultRigidbody) := by
  refine ⟨restoreSnapshot_length snap objects, ?_, ?_⟩
  · intro i hi
    rw [restoreSnapshot_getD, if_pos hi]
    exact ⟨rfl, rfl⟩
  · intro i hi
    rw [restoreSnapshot_getD, if_neg (by omega)]

/-- Witness for `restoreSnapshot_truncates`: a 1-entry snapshot against a
2-body list updates body 0 and leaves body 1 alone. -/
theorem restoreSnapshot_truncates_witness :
    (RestoreSnapshot sampleSnap sampleBodies).length = sampleBodies.length ∧
    kinematicState ((RestoreSnapshot sampleSnap sampleBodies).getD 0 defaultRigidbody) =
      sampleSnap.getD 0 defaultBodySnapshot ∧
    eraseKinematic ((RestoreSnapshot sampleSnap sampleBodies).getD 0 defaultRigidbody) =
      eraseKinematic (sampleBodies.getD 0 defaultRigidbody) ∧
    (RestoreSnapshot sampleSnap sampleBodies).getD 1 defaultRigidbody =
      sampleBodies.getD 1 defaultRigidbody := by
  have h := restoreSnapshot_truncates sampleSnap sampleBodies (by decide)
  exact ⟨h.1, (h.2.1 0 (by decide)).1, (h.2.1 0 (by decide)).2, h.2.2 1 (by decide)⟩

/-- Counterexample to C3 as stated: with inverse masses 1 and 3 and MTV
(4,0), an inverse-mass-ratio split would move body B by 3/4 of the
correction, i.e. to x = 3; the code moves each body by exactly half, to
x = 2. -/
theorem separateBodies_not_inverse_mass_split :
    (SeparateBodies cBodyA cBodyB ⟨4, 0⟩ 4).2.pos ≠
      cBodyB.pos.add (Vec2.smul ⟨4, 0⟩ (cBodyB.invMass / (cBodyA.invMass + cBodyB.invMass))) ∧
    (SeparateBodies cBodyA cBodyB ⟨4, 0⟩ 4).2.pos =
      cBodyB.pos.add (Vec2.smul ⟨4, 0⟩ (1 / 2)) ∧
    (SeparateBodies cBodyA cBodyB ⟨4, 0⟩ 4).1.pos =
      cBodyA.pos.add (Vec2.smul ⟨4, 0⟩ (-(1 / 2))) := by
  refine ⟨?_, ?_, ?_⟩ <;>
  · simp only [SeparateBodies]
    rw [if_neg (by simp [cBodyA, defaultRigidbody]), if_neg (by simp [cBodyB, defaultRigidbody])]
    norm_num [cappedCorrection, MAX_PENETRATION_CORRECTION, translateBody, Vec2.add,
      Vec2.smul, Vec2.neg, Vec2.divScalar, cBodyA, cBodyB, defaultRigidbody, Vec2.mk.injEq]

/-- C3 (amended): `SeparateBodies` translates the bodies apart along the MTV,
capped at `MAX_PENETRATION_CORRECTION`; a static body is never moved; when
both bodies are non-static each receives exactly half of the capped
correction (an even split, independent of the masses). -/
theorem separateBodies_spec (bodyA bodyB : Rigidbody) (mtv : Vec2) (mtvLength : ℚ)
    (h0 : 0 ≤ mtvLength) (h1 : mtvLength * mtvLength = mtv.lengthSquared) :
    (bodyA.bodyType = RigidbodyType.Static →
      (SeparateBodies bodyA bodyB mtv mtvLength).1 = bodyA) ∧
    (bodyB.bodyType = RigidbodyType.Static → bodyA.bodyType ≠ RigidbodyType.Static →
      (SeparateBodies bodyA bodyB mtv mtvLength).2 = bodyB) ∧
    (bodyA.bodyType ≠ RigidbodyType.Static → bodyB.bodyType ≠ RigidbodyType.Static →
      ((SeparateBodies bodyA bodyB mtv mtvLength).1.pos.sub bodyA.pos =
        ((SeparateBodies bodyA bodyB mtv mtvLength).2.pos.sub bodyB.pos).neg ∧
       (SeparateBodies bodyA bodyB mtv mtvLength).2.pos.sub bodyB.pos =
        (cappedCorrection mtv mtvLength).divScalar 2)) ∧
    (mtvLength ≤ MAX_PENETRATION_CORRECTION → cappedCorrection mtv mtvLength = mtv) ∧
    (MAX_PENETRATION_CORRECTION < mtvLength →
      (cappedCorrection mtv mtvLength).lengthSquared =
        MAX_PENETRATION_CORRECTION * MAX_PENETRATION_CORRECTION) := by
  refine ⟨?_, ?_, ?_, ?_, ?_⟩
  · intro hA
    simp [SeparateBodies, hA]
  · intro hB hA
    simp [SeparateBodies, hA, hB]
  · intro hA hB
    constructor
    · simp only [SeparateBodies, if_neg hA, if_neg hB]
      show Vec2.sub (Vec2.add bodyA.pos _) bodyA.pos =
        Vec2.neg (Vec2.sub (Vec2.add bodyB.pos _) bodyB.pos)
      simp only [Vec2.add, Vec2.sub, Vec2.neg, Vec2.divScalar, Vec2.mk.injEq]
      constructor <;> ring
    · simp only [SeparateBodies, if_neg hA, if_neg hB]
      show Vec2.sub (Vec2.add bodyB.pos _) bodyB.pos = _
      simp only [Vec2.add, Vec2.sub, Vec2.divScalar, Vec2.mk.injEq]
      constructor <;> ring
  · intro hle
    simp [cappedCorrection, not_lt.mpr hle]
  · intro hgt
    have hne : mtvLength ≠ 0 := by
      have : (0 : ℚ) < mtvLength := lt_trans (by norm_num [MAX_PENETRATION_CORRECTION]) hgt
      exact ne_of_gt this
    unfold cappedCorrection
    rw [if_pos hgt]
    simp only [Vec2.lengthSquared, Vec2.smul, MAX_PENETRATION_CORRECTION] at h1 ⊢
    field_simp
    nlinarith [h1]

/-- Witness for `separateBodies_spec`: applied at MTV (3,4) of length 5
(uncapped) and at MTV (5,12) of length 13 (capped to length 5). -/
theorem separateBodies_spec_witness :
    ((SeparateBodies cBodyA cBodyB ⟨3, 4⟩ 5).1.pos.sub cBodyA.pos =
      ((SeparateBodies cBodyA cBodyB ⟨3, 4⟩ 5).2.pos.sub cBodyB.pos).neg) ∧
    cappedCorrection ⟨3, 4⟩ 5 = ⟨3, 4⟩ ∧
    (cappedCorrection ⟨5, 12⟩ 13).lengthSquared =
      MAX_PENETRATION_CORRECTION * MAX_PENETRATION_CORRECTION := by
  have h1 := separateBodies_spec cBodyA cBodyB ⟨3, 4⟩ 5 (by norm_num)
    (by norm_num [Vec2.lengthSquared])
  have h2 := separateBodies_spec cBodyA cBodyB ⟨5, 12⟩ 13 (by norm_num)
    (by norm_num [Vec2.lengthSquared])
  refine ⟨(h1.2.2.1 (by decide) (by decide)).1, ?_, ?_⟩
  · exact h1.2.2.2.1 (by norm_num [MAX_PENETRATION_CORRECTION])
  · exact h2.2.2.2.2 (by norm_num [MAX_PENETRATION_CORRECTION])

/-- C4: exactly one incline in the pair → that incline's coefficients are
used; two inclines → the pairwise maxima; no incline → the geometric means
of the two bodies' coefficients. -/
theorem resolveFrictionCoefficients_spec (bodyA bodyB : Rigidbody)
    (geoStatic geoKinetic : ℚ)
    (hgs0 : 0 ≤ geoStatic)
    (hgs : geoStatic * geoStatic = bodyA.staticFriction * bodyB.staticFriction)
    (hgk0 : 0 ≤ geoKinetic)
    (hgk : geoKinetic * geoKinetic = bodyA.kineticFriction * bodyB.kineticFriction) :
    (bodyA.tag = ShapeTag.incline → bodyB.tag ≠ ShapeTag.incline →
      resolveFrictionCoefficients bodyA bodyB geoStatic geoKinetic =
        (bodyA.staticFriction, bodyA.kineticFriction)) ∧
    (bodyB.tag = ShapeTag.incline → bodyA.tag ≠ ShapeTag.incline →
      resolveFrictionCoefficients bodyA bodyB geoStatic geoKinetic =
        (bodyB.staticFriction, bodyB.kineticFriction)) ∧
    (bodyA.tag = ShapeTag.incline → bodyB.tag = ShapeTag.incline →
      resolveFrictionCoefficients bodyA bodyB geoStatic geoKinetic =
        (max bodyA.staticFriction bodyB.staticFriction,
         max bodyA.kineticFriction bodyB.kineticFriction)) ∧
    (bodyA.tag ≠ ShapeTag.incline → bodyB.tag ≠ ShapeTag.incline →
      (0 ≤ (resolveFrictionCoefficients bodyA bodyB geoStatic geoKinetic).1 ∧
       (resolveFrictionCoefficients bodyA bodyB geoStatic geoKinetic).1 *
         (resolveFrictionCoefficients bodyA bodyB geoStatic geoKinetic).1 =
           bodyA.staticFriction * bodyB.staticFriction ∧
       0 ≤ (resolveFrictionCoefficients bodyA bodyB geoStatic geoKinetic).2 ∧
       (resolveFrictionCoefficients bodyA bodyB geoStatic geoKinetic).2 *
         (resolveFrictionCoefficients bodyA bodyB geoStatic geoKinetic).2 =
           bodyA.kineticFriction * bodyB.kineticFriction)) := by
  refine ⟨?_, ?_, ?_, ?_⟩
  · intro hA hB
    simp [resolveFrictionCoefficients, hA, hB]
  · intro hB hA
    simp [resolveFrictionCoefficients, hA, hB]
  · intro hA hB
    simp [resolveFrictionCoefficients, hA, hB]
  · intro hA hB
    simp only [resolveFrictionCoefficients, hA, hB]
    simp [hgs0, hgs, hgk0, hgk]

/-- Witness for `resolveFrictionCoefficients_spec`: an incline-box pair takes
the incline's coefficients; a ball-box pair takes the geometric means
(1/4 and 1/6). -/
theorem resolveFrictionCoefficients_spec_witness :
    resolveFrictionCoefficients cIncline cBox (1 / 4) (1 / 6) =
      (cIncline.staticFriction, cIncline.kineticFriction) ∧
    (resolveFrictionCoefficients cBall cBox (1 / 4) (1 / 6)).1 *
      (resolveFrictionCoefficients cBall cBox (1 / 4) (1 / 6)).1 =
        cBall.staticFriction * cBox.staticFriction := by
  have h1 := resolveFrictionCoefficients_spec cIncline cBox (1 / 4) (1 / 6)
    (by norm_num) (by norm_num [cIncline, cBox, defaultRigidbody])
    (by norm_num) (by norm_num [cIncline, cBox, defaultRigidbody])
  have h2 := resolveFrictionCoefficients_spec cBall cBox (1 / 4) (1 / 6)
    (by norm_num) (by norm_num [cBall, cBox, defaultRigidbody])
    (by norm_num) (by norm_num [cBall, cBox, defaultRigidbody])
  exact ⟨h1.1 (by decide) (by decide), (h2.2.2.2 (by decide) (by decide)).2.1⟩

/-- C9: `IntersectCircles` reports a collision iff the center distance is
strictly less than the sum of the radii; on a hit the depth is the radius sum
minus the distance and the normal is the center-to-center direction, falling
back to the +X axis exactly when the centers coincide. -/
theorem intersectCircles_spec (centerA : Vec2) (radiusA : ℚ) (centerB : Vec2)
    (radiusB dist : ℚ)
    (hd0 : 0 ≤ dist)
    (hd : dist * dist = Vec2.distanceSquared centerA centerB)
    (hr : 0 ≤ radiusA + radiusB) :
    ((IntersectCircles centerA radiusA centerB radiusB dist).result = true ↔
      dist < radiusA + radiusB) ∧
    ((IntersectCircles centerA radiusA centerB radiusB dist).result = true →
      (IntersectCircles centerA radiusA centerB radiusB dist).depth =
        radiusA + radiusB - dist) ∧
    ((IntersectCircles centerA radiusA centerB radiusB dist).result = true →
      0 < dist →
      (IntersectCircles centerA radiusA centerB radiusB dist).normal =
        (centerB.sub centerA).smul (1 / dist)) ∧
    ((IntersectCircles centerA radiusA centerB radiusB dist).result = true →
      dist = 0 →
      (IntersectCircles centerA radiusA centerB radiusB dist).normal = ⟨1, 0⟩) := by
  simp only [IntersectCircles]
  split_ifs with h hpos
  · have hlt : ¬ dist < radiusA + radiusB := by nlinarith [hd]
    simp [hlt]
  · have hlt : dist < radiusA + radiusB := by nlinarith [hd]
    refine ⟨⟨fun _ => hlt, fun _ => rfl⟩, fun _ => rfl, fun _ _ => rfl, ?_⟩
    intro _ hzero
    exact absurd hpos (by simp [hzero])
  · have hlt : dist < radiusA + radiusB := by nlinarith [hd]
    refine ⟨⟨fun _ => hlt, fun _ => rfl⟩, fun _ => rfl, ?_, fun _ _ => rfl⟩
    intro _ hp
    exact absurd hp hpos

/-- Witness for `intersectCircles_spec`: radius-5 circles whose centers are 8
apart collide with depth 2; at distance 10 they do not collide. -/
theorem intersectCircles_spec_witness :
    ((IntersectCircles ⟨0, 0⟩ 5 ⟨8, 0⟩ 5 8).result = true ∧
     (IntersectCircles ⟨0, 0⟩ 5 ⟨8, 0⟩ 5 8).depth = 2) ∧
    (IntersectCircles ⟨0, 0⟩ 5 ⟨10, 0⟩ 5 10).result = false := by
  have h1 := intersectCircles_spec ⟨0, 0⟩ 5 ⟨8, 0⟩ 5 8 (by norm_num)
    (by norm_num [Vec2.distanceSquared]) (by norm_num)
  have h2 := intersectCircles_spec ⟨0, 0⟩ 5 ⟨10, 0⟩ 5 10 (by norm_num)
    (by norm_num [Vec2.distanceSquared]) (by norm_num)
  have hres : (IntersectCircles ⟨0, 0⟩ 5 ⟨8, 0⟩ 5 8).result = true :=
    h1.1.mpr (by norm_num)
  refine ⟨⟨hres, (h1.2.1 hres).trans (by norm_num)⟩, ?_⟩
  cases hm : (IntersectCircles ⟨0, 0⟩ 5 ⟨10, 0⟩ 5 10).result
  · rfl
  · exact absurd (h2.1.mp hm) (by norm_num)

lemma adaptiveFoldl_ge (dt : ℚ) (l : List AdaptiveBody) :
    ∀ acc : ℤ, acc ≤ l.foldl (adaptiveStep dt) acc := by
  induction l with
  | nil => intro acc; simp
  | cons c rest ih =>
    intro acc
    refine le_trans ?_ (ih (adaptiveStep dt acc c))
    unfold adaptiveStep
    split_ifs <;> simp

lemma adaptiveFoldl_mem (dt : ℚ) (b : AdaptiveBody)
    (hdyn : b.bodyType = RigidbodyType.Dynamic)
    (hspeed : ¬ b.speed < 1) (hsize : ¬ b.bodySize < 1 / 10) :
    ∀ (l : List AdaptiveBody), b ∈ l →
      ∀ acc : ℤ, neededIterations dt b ≤ l.foldl (adaptiveStep dt) acc := by
  intro l
  induction l with
  | nil => intro h; cases h
  | cons c rest ih =>
    intro hb acc
    rcases List.mem_cons.mp hb with h | h
    · subst h
      refine le_trans ?_ (adaptiveFoldl_ge dt rest _)
      unfold adaptiveStep
      rw [if_neg (by simp [hdyn]), if_neg hspeed, if_neg hsize]
      exact le_max_right _ _
    · exact ih h _

/-- Counterexample to C2 as stated: with requested count 200 (above the
global maximum 128) and no bodies, the function returns 128 < 200, so it can
go below the caller's request; and a dynamic body slower than 1 px/s is
skipped by the loop, so with a long tick it crosses far more than half its
size per sub-step. -/
theorem computeAdaptiveIterations_claim_counterexample :
    (ComputeAdaptiveIterations (1667 / 100) 200 [] = 128 ∧ ¬ (200 : ℤ) ≤ 128) ∧
    (ComputeAdaptiveIterations 1000 1 [cSlowBody] = 1 ∧
     ¬ cSlowBody.speed * (1000 / 1000) ≤
        (ComputeAdaptiveIterations 1000 1 [cSlowBody] : ℚ) *
          (CFL_SAFETY_FACTOR * cSlowBody.bodySize)) := by
  have e1 : ComputeAdaptiveIterations (1667 / 100) 200 [] = 128 := by
    norm_num [ComputeAdaptiveIterations, ClampIterations,
      MIN_PHYSICS_ITERATIONS, MAX_PHYSICS_ITERATIONS]
  have e2 : ComputeAdaptiveIterations 1000 1 [cSlowBody] = 1 := by
    norm_num [ComputeAdaptiveIterations, ClampIterations, adaptiveStep, cSlowBody,
      MIN_PHYSICS_ITERATIONS, MAX_PHYSICS_ITERATIONS]
  refine ⟨⟨e1, by norm_num⟩, e2, ?_⟩
  rw [e2]
  norm_num [cSlowBody, CFL_SAFETY_FACTOR]

/-- C2 (amended): the result equals the requested count raised by the
per-body CFL requirements and then clamped into
[MIN_PHYSICS_ITERATIONS, MAX_PHYSICS_ITERATIONS]; consequently it is within
the global bound, it is at least the requested count whenever that request
does not exceed the maximum, and every dynamic body that passes the speed
(≥ 1) and size (≥ 0.1) guards and whose required count fits under the
maximum travels at most `CFL_SAFETY_FACTOR` (half) of its bounding half-
diagonal per sub-step. -/
theorem computeAdaptiveIterations_spec (deltaMs : ℚ) (requested : ℤ)
    (objects : List AdaptiveBody) :
    (MIN_PHYSICS_ITERATIONS ≤ ComputeAdaptiveIterations deltaMs requested objects ∧
     ComputeAdaptiveIterations deltaMs requested objects ≤ MAX_PHYSICS_ITERATIONS) ∧
    (requested ≤ MAX_PHYSICS_ITERATIONS →
      requested ≤ ComputeAdaptiveIterations deltaMs requested objects) ∧
    (∀ b ∈ objects, b.bodyType = RigidbodyType.Dynamic → 1 ≤ b.speed →
      1 / 10 ≤ b.bodySize →
      neededIterations (deltaMs / 1000) b ≤ MAX_PHYSICS_ITERATIONS →
      b.speed * (deltaMs / 1000) ≤
        (ComputeAdaptiveIterations deltaMs requested objects : ℚ) *
          (CFL_SAFETY_FACTOR * b.bodySize)) := by
  have hge : requested ≤ objects.foldl (adaptiveStep (deltaMs / 1000)) requested :=
    adaptiveFoldl_ge _ _ _
  refine ⟨?_, ?_, ?_⟩
  · unfold ComputeAdaptiveIterations ClampIterations
    simp only [MIN_PHYSICS_ITERATIONS, MAX_PHYSICS_ITERATIONS]
    constructor <;> (split_ifs <;> omega)
  · intro hreq
    simp only [MIN_PHYSICS_ITERATIONS, MAX_PHYSICS_ITERATIONS] at hreq
    unfold ComputeAdaptiveIterations ClampIterations
    simp only [MIN_PHYSICS_ITERATIONS, MAX_PHYSICS_ITERATIONS]
    split_ifs <;> omega
  · intro b hbmem hdyn hsp hsz hneed
    have h1 : neededIterations (deltaMs / 1000) b ≤
        objects.foldl (adaptiveStep (deltaMs / 1000)) requested :=
      adaptiveFoldl_mem _ b hdyn (not_lt.mpr hsp) (not_lt.mpr hsz) objects hbmem requested
    have h2 : neededIterations (deltaMs / 1000) b ≤
        ComputeAdaptiveIterations deltaMs requested objects := by
      simp only [MIN_PHYSICS_ITERATIONS, MAX_PHYSICS_ITERATIONS] at hneed
      unfold ComputeAdaptiveIterations ClampIterations
      simp only [MIN_PHYSICS_ITERATIONS, MAX_PHYSICS_ITERATIONS]
      split_ifs <;> omega
    have hc : (0 : ℚ) < CFL_SAFETY_FACTOR * b.bodySize := by
      have hpos : (0 : ℚ) < b.bodySize := lt_of_lt_of_le (by norm_num) hsz
      unfold CFL_SAFETY_FACTOR
      nlinarith
    have hle : b.speed * (deltaMs / 1000) / (CFL_SAFETY_FACTOR * b.bodySize) ≤
        (ComputeAdaptiveIterations deltaMs requested objects : ℚ) := by
      refine le_trans (Int.le_ceil _) ?_
      exact_mod_cast h2
    rw [div_le_iff₀ hc] at hle
    exact hle

/-- Witness for `computeAdaptiveIterations_spec`: a body of speed 100 px/s
and size 10 over a 1-second tick forces 20 sub-steps, within bounds and
satisfying the CFL inequality. -/
theorem computeAdaptiveIterations_spec_witness :
    (MIN_PHYSICS_ITERATIONS ≤ ComputeAdaptiveIterations 1000 1 [cFastBody] ∧
     ComputeAdaptiveIterations 1000 1 [cFastBody] ≤ MAX_PHYSICS_ITERATIONS) ∧
    (1 : ℤ) ≤ ComputeAdaptiveIterations 1000 1 [cFastBody] ∧
    cFastBody.speed * (1000 / 1000) ≤
      (ComputeAdaptiveIterations 1000 1 [cFastBody] : ℚ) *
        (CFL_SAFETY_FACTOR * cFastBody.bodySize) := by
  have h := computeAdaptiveIterations_spec 1000 1 [cFastBody]
  refine ⟨h.1, h.2.1 (by norm_num [MAX_PHYSICS_ITERATIONS]), ?_⟩
  refine h.2.2 cFastBody (List.mem_singleton_self _) rfl (by norm_num [cFastBody])
    (by norm_num [cFastBody]) ?_
  norm_num [neededIterations, cFastBody, CFL_SAFETY_FACTOR, MAX_PHYSICS_ITERATIONS]

/-- C8: a static body (whose inverse mass and inverse inertia are zero) is
left with unchanged position, rotation, linear velocity and angular velocity
by every mutation a simulation tick applies to bodies: integration
(`Rigidbody::Update`), positional separation (`SeparateBodies`, on either
side of a non-static-static pair), the normal- and friction-impulse
applications of the solver, and the swept contact correction; moreover the
constructor makes `invMass = 0` and `UpdateMassProperties` makes
`invInertia = 0` for static bodies. -/
theorem staticBody_invariant (b other : Rigidbody) (deltaMs : ℚ) (iterations : ℤ)
    (mtv impulse ra rb prevPos integratedPos p v a : Vec2)
    (mtvLength correctionMag dispLen m e inertia : ℚ)
    (tg : ShapeTag) (bx : AABB) (overlapsStatic : Vec2 → Bool)
    (hb : b.bodyType = RigidbodyType.Static)
    (him : b.invMass = 0) (hii : b.invInertia = 0) :
    RigidbodyUpdate b deltaMs iterations = b ∧
    (SeparateBodies b other mtv mtvLength).1 = b ∧
    (other.bodyType ≠ RigidbodyType.Static →
      (SeparateBodies other b mtv mtvLength).2 = b) ∧
    ((applyNormalImpulse b other impulse ra rb).1.pos = b.pos ∧
     (applyNormalImpulse b other impulse ra rb).1.rotation = b.rotation ∧
     (applyNormalImpulse b other impulse ra rb).1.linearVel = b.linearVel ∧
     (applyNormalImpulse b other impulse ra rb).1.angularVel = b.angularVel) ∧
    ((applyNormalImpulse other b impulse ra rb).2.pos = b.pos ∧
     (applyNormalImpulse other b impulse ra rb).2.rotation = b.rotation ∧
     (applyNormalImpulse other b impulse ra rb).2.linearVel = b.linearVel ∧
     (applyNormalImpulse other b impulse ra rb).2.angularVel = b.angularVel) ∧
    ((applyFrictionImpulse b other impulse ra rb).1.pos = b.pos ∧
     (applyFrictionImpulse b other impulse ra rb).1.rotation = b.rotation ∧
     (applyFrictionImpulse b other impulse ra rb).1.linearVel = b.linearVel ∧
     (applyFrictionImpulse b other impulse ra rb).1.angularVel = b.angularVel) ∧
    ((applyFrictionImpulse other b impulse ra rb).2.pos = b.pos ∧
     (applyFrictionImpulse other b impulse ra rb).2.rotation = b.rotation ∧
     (applyFrictionImpulse other b impulse ra rb).2.linearVel = b.linearVel ∧
     (applyFrictionImpulse other b impulse ra rb).2.angularVel = b.angularVel) ∧
    SweptContactCorrection b prevPos integratedPos correctionMag dispLen overlapsStatic = b ∧
    (mkRigidbody p v a m e RigidbodyType.Static tg bx).invMass = 0 ∧
    (UpdateMassProperties b inertia).invInertia = 0 := by
  refine ⟨?_, ?_, ?_, ?_, ?_, ?_, ?_, ?_, ?_, ?_⟩
  · simp [RigidbodyUpdate, hb]
  · simp [SeparateBodies, hb]
  · intro hother
    simp [SeparateBodies, hother, hb]
  · refine ⟨rfl, rfl, ?_, ?_⟩ <;>
      simp [applyNormalImpulse, him, hii, Vec2.smul, Vec2.add]
  · refine ⟨rfl, rfl, ?_, ?_⟩ <;>
      simp [applyNormalImpulse, him, hii, Vec2.smul, Vec2.add]
  · unfold applyFrictionImpulse
    split_ifs <;> refine ⟨rfl, rfl, ?_, ?_⟩ <;>
      simp [him, hii, Vec2.smul, Vec2.add]
  · unfold applyFrictionImpulse
    split_ifs <;> refine ⟨rfl, rfl, ?_, ?_⟩ <;>
      simp [him, hii, Vec2.smul, Vec2.add]
  · simp [SweptContactCorrection, hb]
  · simp [mkRigidbody]
  · simp [UpdateMassProperties, hb]

/-- Witness for `staticBody_invariant` at a concrete static wall against a
concrete dynamic body with a concrete impulse, MTV and swept path. -/
theorem staticBody_invariant_witness :
    RigidbodyUpdate cStaticBody 16 1 = cStaticBody ∧
    (SeparateBodies cStaticBody cBodyA ⟨3, 4⟩ 5).1 = cStaticBody ∧
    (SeparateBodies cBodyA cStaticBody ⟨3, 4⟩ 5).2 = cStaticBody ∧
    (applyNormalImpulse cStaticBody cBodyA ⟨7, 1⟩ ⟨1, 2⟩ ⟨3, 4⟩).1.linearVel =
      cStaticBody.linearVel ∧
    (applyFrictionImpulse cStaticBody cBodyA ⟨7, 1⟩ ⟨1, 2⟩ ⟨3, 4⟩).1.angularVel =
      cStaticBody.angularVel ∧
    SweptContactCorrection cStaticBody ⟨0, 0⟩ ⟨10, 0⟩ 3 10 (fun _ => false) =
      cStaticBody ∧
    (mkRigidbody ⟨0, 0⟩ ⟨0, 0⟩ ⟨0, 0⟩ 2 (1 / 2) RigidbodyType.Static ShapeTag.box
      ⟨⟨0, 0⟩, ⟨1, 1⟩⟩).invMass = 0 ∧
    (UpdateMassProperties cStaticBody 5).invInertia = 0 := by
  obtain ⟨h1, h2, h3, h4, h5, h6, h7, h8, h9, h10⟩ :=
    staticBody_invariant cStaticBody cBodyA 16 1 ⟨3, 4⟩ ⟨7, 1⟩ ⟨1, 2⟩ ⟨3, 4⟩ ⟨0, 0⟩
      ⟨10, 0⟩ ⟨0, 0⟩ ⟨0, 0⟩ ⟨0, 0⟩ 5 3 10 2 (1 / 2) 5 ShapeTag.box ⟨⟨0, 0⟩, ⟨1, 1⟩⟩
      (fun _ => false) rfl rfl rfl
  exact ⟨h1, h2, h3 (by decide), h4.2.2.1, h6.2.2.2, h8, h9, h10⟩

lemma mem_intRange {lo hi x : ℤ} : x ∈ intRange lo hi ↔ lo ≤ x ∧ x ≤ hi := by
  unfold intRange
  rw [List.mem_map]
  constructor
  · rintro ⟨k, hk, rfl⟩
    rw [List.mem_range] at hk
    omega
  · rintro ⟨h1, h2⟩
    refine ⟨(x - lo).toNat, ?_, ?_⟩
    · rw [List.mem_range]
      omega
    · omega

lemma mem_cellsOfAABB {box : AABB} {c : ℤ × ℤ} :
    c ∈ cellsOfAABB box ↔
      (Int.floor (box.min.x * (1 / cellSize)) ≤ c.1 ∧
       c.1 ≤ Int.floor (box.max.x * (1 / cellSize)) ∧
       Int.floor (box.min.y * (1 / cellSize)) ≤ c.2 ∧
       c.2 ≤ Int.floor (box.max.y * (1 / cellSize))) := by
  obtain ⟨cx, cy⟩ := c
  unfold cellsOfAABB
  simp only [List.mem_flatMap, List.mem_map, Prod.mk.injEq]
  constructor
  · rintro ⟨x, hx, y, hy, rfl, rfl⟩
    have h1 := mem_intRange.mp hx
    have h2 := mem_intRange.mp hy
    exact ⟨h1.1, h1.2, h2.1, h2.2⟩
  · rintro ⟨h1, h2, h3, h4⟩
    exact ⟨cx, mem_intRange.mpr ⟨h1, h2⟩, cy, mem_intRange.mpr ⟨h3, h4⟩, rfl, rfl⟩

lemma intersectAABBs_comm (a b : AABB) : IntersectAABBs a b = IntersectAABBs b a := by
  unfold IntersectAABBs
  split_ifs with h1 h2 <;> first | rfl | (exfalso; tauto)

lemma overlap_shared_cell {a b : AABB} (hwa : wellFormedAABB a) (hwb : wellFormedAABB b)
    (hov : IntersectAABBs a b = true) :
    ∃ c : ℤ × ℤ, c ∈ cellsOfAABB a ∧ c ∈ cellsOfAABB b := by
  unfold IntersectAABBs at hov
  split_ifs at hov with h
  push_neg at h
  obtain ⟨h1, h2, h3, h4⟩ := h
  obtain ⟨hwa1, hwa2⟩ := hwa
  obtain ⟨hwb1, hwb2⟩ := hwb
  have hcs : (0 : ℚ) ≤ 1 / cellSize := by norm_num [cellSize]
  refine ⟨(Int.floor (max a.min.x b.min.x * (1 / cellSize)),
           Int.floor (max a.min.y b.min.y * (1 / cellSize))), ?_, ?_⟩ <;>
    refine mem_cellsOfAABB.mpr ⟨?_, ?_, ?_, ?_⟩ <;>
    refine Int.floor_le_floor (mul_le_mul_of_nonneg_right ?_ hcs)
  · exact le_max_left _ _
  · exact max_le hwa1 (le_of_lt h1)
  · exact le_max_left _ _
  · exact max_le hwa2 (le_of_lt h3)
  · exact le_max_right _ _
  · exact max_le (le_of_lt h2) hwb1
  · exact le_max_right _ _
  · exact max_le (le_of_lt h4) hwb2

lemma mem_cellOccupants {bodies : List Rigidbody} {i : ℕ} {c : ℤ × ℤ}
    (hi : i < bodies.length)
    (hcol : collidableBody (bodies.getD i defaultRigidbody) = true)
    (hc : c ∈ cellsOfAABB (aabbOf bodies i)) :
    i ∈ cellOccupants bodies (cellKey c) := by
  unfold cellOccupants
  rw [List.mem_flatMap]
  refine ⟨i, List.mem_range.mpr hi, ?_⟩
  rw [if_pos hcol, List.mem_map]
  exact ⟨c, List.mem_filter.mpr ⟨hc, by simp⟩, rfl⟩

lemma mem_gridKeys {bodies : List Rigidbody} {i : ℕ} {c : ℤ × ℤ}
    (hi : i < bodies.length)
    (hcol : collidableBody (bodies.getD i defaultRigidbody) = true)
    (hc : c ∈ cellsOfAABB (aabbOf bodies i)) :
    cellKey c ∈ gridKeys bodies := by
  unfold gridKeys
  refine List.mem_dedup.mpr ?_
  rw [List.mem_flatMap]
  refine ⟨i, List.mem_range.mpr hi, ?_⟩
  rw [if_pos hcol, List.mem_map]
  exact ⟨c, hc, rfl⟩

lemma cellOccupants_lt {bodies : List Rigidbody} {k i : ℕ}
    (h : i ∈ cellOccupants bodies k) : i < bodies.length := by
  unfold cellOccupants at h
  rw [List.mem_flatMap] at h
  obtain ⟨i', hi', hmem⟩ := h
  by_cases hcol : collidableBody (bodies.getD i' defaultRigidbody) = true
  · rw [if_pos hcol, List.mem_map] at hmem
    obtain ⟨_, _, rfl⟩ := hmem
    exact List.mem_range.mp hi'
  · rw [if_neg hcol] at hmem
    cases hmem

lemma mem_orderedOffsetPairs_of_mem {x y : ℕ} :
    ∀ {l : List ℕ}, x ∈ l → y ∈ l → x ≠ y →
      (x, y) ∈ orderedOffsetPairs l ∨ (y, x) ∈ orderedOffsetPairs l := by
  intro l
  induction l with
  | nil => intro hx; cases hx
  | cons c rest ih =>
    intro hx hy hxy
    rcases List.mem_cons.mp hx with h1 | h1
    · subst h1
      have hyr : y ∈ rest := by
        rcases List.mem_cons.mp hy with h2 | h2
        · exact absurd h2.symm hxy
        · exact h2
      left
      unfold orderedOffsetPairs
      rw [List.mem_append, List.mem_map]
      exact Or.inl ⟨y, hyr, rfl⟩
    · rcases List.mem_cons.mp hy with h2 | h2
      · subst h2
        right
        unfold orderedOffsetPairs
        rw [List.mem_append, List.mem_map]
        exact Or.inl ⟨x, h1, rfl⟩
      · rcases ih h1 h2 hxy with h | h
        · left
          unfold orderedOffsetPairs
          rw [List.mem_append]
          exact Or.inr h
        · right
          unfold orderedOffsetPairs
          rw [List.mem_append]
          exact Or.inr h

lemma orderedOffsetPairs_subset {p : ℕ × ℕ} :
    ∀ {l : List ℕ}, p ∈ orderedOffsetPairs l → p.1 ∈ l ∧ p.2 ∈ l := by
  intro l
  induction l with
  | nil => intro hp; cases hp
  | cons c rest ih =>
    intro hp
    unfold orderedOffsetPairs at hp
    rw [List.mem_append, List.mem_map] at hp
    rcases hp with ⟨y, hy, rfl⟩ | hp
    · exact ⟨List.mem_cons_self _ _, List.mem_cons_of_mem _ hy⟩
    · obtain ⟨h1, h2⟩ := ih hp
      exact ⟨List.mem_cons_of_mem _ h1, List.mem_cons_of_mem _ h2⟩

lemma not_length_lt_two {x y : ℕ} {l : List ℕ} (hx : x ∈ l) (hy : y ∈ l)
    (hxy : x ≠ y) : ¬ l.length < 2 := by
  match l with
  | [] => cases hx
  | [a] =>
    rw [List.mem_singleton] at hx hy
    exact absurd (hx.trans hy.symm) hxy
  | a :: b :: t => simp

lemma pairKey_eq_add {m M : ℕ} (hm : m < 2 ^ 32) (hM : M < 2 ^ 32) :
    pairKey m M = 2 ^ 32 * m + M := by
  unfold pairKey
  have hp : (2 : ℕ) ^ 32 = 4294967296 := by norm_num
  have h64 : (2 : ℕ) ^ 64 = 18446744073709551616 := by norm_num
  have h1 : m * 2 ^ 32 < 2 ^ 64 := by rw [hp, h64]; rw [hp] at hm; omega
  rw [Nat.mod_eq_of_lt h1, Nat.mul_comm]
  exact (Nat.mul_add_lt_is_or hM m).symm

lemma pairKey_inj {m M m' M' : ℕ} (hm : m < 2 ^ 32) (hM : M < 2 ^ 32)
    (hm' : m' < 2 ^ 32) (hM' : M' < 2 ^ 32)
    (h : pairKey m M = pairKey m' M') : m = m' ∧ M = M' := by
  rw [pairKey_eq_add hm hM, pairKey_eq_add hm' hM'] at h
  have hp : (2 : ℕ) ^ 32 = 4294967296 := by norm_num
  rw [hp] at h hm hM hm' hM'
  omega

lemma ite_min (i j : ℕ) : (if i < j then i else j) = min i j := by
  split_ifs <;> omega

lemma ite_max (i j : ℕ) : (if i < j then j else i) = max i j := by
  split_ifs <;> omega

lemma processPair_result (bodies : List Rigidbody) (st : BPState) (ij : ℕ × ℕ) :
    processPair bodies st ij = st ∨
    ((processPair bodies st ij).pairSet =
        pairKey (min ij.1 ij.2) (max ij.1 ij.2) :: st.pairSet ∧
      ((processPair bodies st ij).pairs = st.pairs ∨
       (processPair bodies st ij).pairs =
         st.pairs ++ [(min ij.1 ij.2, max ij.1 ij.2)])) := by
  simp only [processPair, ite_min, ite_max]
  split_ifs <;> simp

lemma processPair_emit (bodies : List Rigidbody) (st : BPState) (ij : ℕ × ℕ)
    (hstat : ¬((bodies.getD ij.1 defaultRigidbody).bodyType = RigidbodyType.Static ∧
               (bodies.getD ij.2 defaultRigidbody).bodyType = RigidbodyType.Static))
    (hk : pairKey (min ij.1 ij.2) (max ij.1 ij.2) ∉ st.pairSet)
    (hab : IntersectAABBs (aabbOf bodies ij.1) (aabbOf bodies ij.2) = true) :
    (processPair bodies st ij).pairs =
      st.pairs ++ [(min ij.1 ij.2, max ij.1 ij.2)] := by
  simp only [processPair, ite_min, ite_max]
  rw [if_neg hstat, if_neg hk, if_pos hab]

lemma foldl_pairs_mono (bodies : List Rigidbody) (S : List (ℕ × ℕ)) :
    ∀ (st : BPState) {p : ℕ × ℕ}, p ∈ st.pairs →
      p ∈ (S.foldl (processPair bodies) st).pairs := by
  induction S with
  | nil => intro st p hp; exact hp
  | cons q S' ih =>
    intro st p hp
    rw [List.foldl_cons]
    apply ih
    rcases processPair_result bodies st q with h | ⟨_, h2 | h2⟩
    · rw [h]
      exact hp
    · rw [h2]
      exact hp
    · rw [h2]
      exact List.mem_append_left _ hp

lemma foldl_complete (bodies : List Rigidbody) (a b : ℕ)
    (hab : a ≤ b) (ha : a < 2 ^ 32) (hb2 : b < 2 ^ 32)
    (hstat : ¬((bodies.getD a defaultRigidbody).bodyType = RigidbodyType.Static ∧
               (bodies.getD b defaultRigidbody).bodyType = RigidbodyType.Static))
    (hover : IntersectAABBs (aabbOf bodies a) (aabbOf bodies b) = true) :
    ∀ (S : List (ℕ × ℕ)) (st : BPState),
      (∀ ij ∈ S, ij.1 < 2 ^ 32 ∧ ij.2 < 2 ^ 32) →
      ((a, b) ∈ S ∨ (b, a) ∈ S) →
      pairKey a b ∉ st.pairSet →
      (a, b) ∈ (S.foldl (processPair bodies) st).pairs := by
  intro S
  induction S with
  | nil =>
    intro st _ hocc _
    rcases hocc with h | h <;> cases h
  | cons q S' ih =>
    intro st hbound hocc hkey
    rw [List.foldl_cons]
    by_cases hq : min q.1 q.2 = a ∧ max q.1 q.2 = b
    · have horient : (q.1 = a ∧ q.2 = b) ∨ (q.1 = b ∧ q.2 = a) := by omega
      have hstatq :
          ¬((bodies.getD q.1 defaultRigidbody).bodyType = RigidbodyType.Static ∧
            (bodies.getD q.2 defaultRigidbody).bodyType = RigidbodyType.Static) := by
        rcases horient with ⟨h1, h2⟩ | ⟨h1, h2⟩ <;> rw [h1, h2]
        · exact hstat
        · exact fun hc => hstat ⟨hc.2, hc.1⟩
      have hoverq : IntersectAABBs (aabbOf bodies q.1) (aabbOf bodies q.2) = true := by
        rcases horient with ⟨h1, h2⟩ | ⟨h1, h2⟩ <;> rw [h1, h2]
        · exact hover
        · rw [intersectAABBs_comm]
          exact hover
      have hemit := processPair_emit bodies st q hstatq
        (by rw [hq.1, hq.2]; exact hkey) hoverq
      refine foldl_pairs_mono bodies S' _ ?_
      rw [hemit, hq.1, hq.2]
      exact List.mem_append_right _ (List.mem_singleton_self _)
    · have hocc' : (a, b) ∈ S' ∨ (b, a) ∈ S' := by
        rcases hocc with h | h
        · rcases List.mem_cons.mp h with h1 | h1
          · exfalso
            apply hq
            have hq1 : q.1 = a ∧ q.2 = b := by rw [← h1]; exact ⟨rfl, rfl⟩
            omega
          · exact Or.inl h1
        · rcases List.mem_cons.mp h with h1 | h1
          · exfalso
            apply hq
            have hq1 : q.1 = b ∧ q.2 = a := by rw [← h1]; exact ⟨rfl, rfl⟩
            omega
          · exact Or.inr h1
      have hkey' : pairKey a b ∉ (processPair bodies st q).pairSet := by
        have hq1 : q.1 < 2 ^ 32 := (hbound q (List.mem_cons_self q S')).1
        have hq2 : q.2 < 2 ^ 32 := (hbound q (List.mem_cons_self q S')).2
        rcases processPair_result bodies st q with h | ⟨h1, _⟩
        · rw [h]
          exact hkey
        · rw [h1]
          intro hmem
          rcases List.mem_cons.mp hmem with heq | hmem'
          · have hminq : min q.1 q.2 < 2 ^ 32 := by omega
            have hmaxq : max q.1 q.2 < 2 ^ 32 := by omega
            have hinj := pairKey_inj ha hb2 hminq hmaxq heq
            exact hq ⟨hinj.1.symm, hinj.2.symm⟩
          · exact hkey hmem'
      exact ih _ (fun ij hij => hbound ij (List.mem_cons_of_mem _ hij)) hocc' hkey'

lemma processCell_eq_foldl (bodies : List Rigidbody) (st : BPState) (indices : List ℕ) :
    processCell bodies st indices =
      (if indices.length < 2 then [] else orderedOffsetPairs indices).foldl
        (processPair bodies) st := by
  unfold processCell
  split_ifs <;> rfl

lemma foldl_cells_flatten (bodies : List Rigidbody) (keys : List ℕ) :
    ∀ st : BPState,
      keys.foldl (fun st k => processCell bodies st (cellOccupants bodies k)) st =
        (keys.flatMap fun k =>
          if (cellOccupants bodies k).length < 2 then []
          else orderedOffsetPairs (cellOccupants bodies k)).foldl
          (processPair bodies) st := by
  induction keys with
  | nil => intro st; rfl
  | cons k ks ih =>
    intro st
    rw [List.foldl_cons, ih, List.flatMap_cons, List.foldl_append, processCell_eq_foldl]

lemma processPair_inv (bodies : List Rigidbody) (st : BPState) (ij : ℕ × ℕ)
    (h1 : st.pairs.Nodup)
    (h2 : ∀ p ∈ st.pairs, pairKey p.1 p.2 ∈ st.pairSet)
    (h3 : ∀ p ∈ st.pairs, p.1 ≤ p.2) :
    (processPair bodies st ij).pairs.Nodup ∧
    (∀ p ∈ (processPair bodies st ij).pairs,
      pairKey p.1 p.2 ∈ (processPair bodies st ij).pairSet) ∧
    (∀ p ∈ (processPair bodies st ij).pairs, p.1 ≤ p.2) := by
  simp only [processPair, ite_min, ite_max]
  split_ifs with hs hk hab
  · exact ⟨h1, h2, h3⟩
  · exact ⟨h1, h2, h3⟩
  · refine ⟨?_, ?_, ?_⟩
    · rw [List.nodup_append]
      refine ⟨h1, List.nodup_singleton _, ?_⟩
      intro p hp hp2
      rw [List.mem_singleton] at hp2
      apply hk
      have hkey := h2 p hp
      rw [hp2] at hkey
      exact hkey
    · intro p hp
      rcases List.mem_append.mp hp with hp1 | hp1
      · exact List.mem_cons_of_mem _ (h2 p hp1)
      · rw [List.mem_singleton] at hp1
        subst hp1
        exact List.mem_cons_self _ _
    · intro p hp
      rcases List.mem_append.mp hp with hp1 | hp1
      · exact h3 p hp1
      · rw [List.mem_singleton] at hp1
        subst hp1
        exact min_le_max
  · refine ⟨h1, ?_, h3⟩
    intro p hp
    exact List.mem_cons_of_mem _ (h2 p hp)

lemma foldl_inv (bodies : List Rigidbody) (S : List (ℕ × ℕ)) :
    ∀ st : BPState,
      st.pairs.Nodup →
      (∀ p ∈ st.pairs, pairKey p.1 p.2 ∈ st.pairSet) →
      (∀ p ∈ st.pairs, p.1 ≤ p.2) →
      ((S.foldl (processPair bodies) st).pairs.Nodup ∧
       ∀ p ∈ (S.foldl (processPair bodies) st).pairs, p.1 ≤ p.2) := by
  induction S with
  | nil => intro st h1 _ h3; exact ⟨h1, h3⟩
  | cons q S' ih =>
    intro st h1 h2 h3
    rw [List.foldl_cons]
    obtain ⟨g1, g2, g3⟩ := processPair_inv bodies st q h1 h2 h3
    exact ih _ g1 g2 g3

/-- C7: the pair list of `BuildPairs` never contains the same entry twice,
and every entry is canonicalized with the smaller index first. -/
theorem buildPairs_nodup (bodies : List Rigidbody) :
    (BuildPairs bodies).Nodup ∧
    (BuildPairs bodies).all (fun p => decide (p.1 ≤ p.2)) = true := by
  unfold BuildPairs
  split_ifs with h
  · simp
  · rw [foldl_cells_flatten]
    obtain ⟨g1, g3⟩ := foldl_inv bodies _ ⟨[], []⟩ (by simp) (by simp) (by simp)
    refine ⟨g1, ?_⟩
    rw [List.all_eq_true]
    intro p hp
    simpa using g3 p hp

/-- C1 (amended): for two distinct, collidable (non-cannon) bodies that are
not both static and whose cached AABBs strictly overlap, `BuildPairs` emits
the canonical pair at least once (assuming well-formed AABBs and at most
`2^32` bodies, so that the packed 64-bit pair keys cannot collide). -/
theorem buildPairs_complete (bodies : List Rigidbody) (i j : ℕ)
    (hn : bodies.length ≤ 2 ^ 32)
    (hi : i < bodies.length) (hj : j < bodies.length) (hij : i ≠ j)
    (hwi : wellFormedAABB (aabbOf bodies i)) (hwj : wellFormedAABB (aabbOf bodies j))
    (hci : collidableBody (bodies.getD i defaultRigidbody) = true)
    (hcj : collidableBody (bodies.getD j defaultRigidbody) = true)
    (hstat : ¬((bodies.getD i defaultRigidbody).bodyType = RigidbodyType.Static ∧
               (bodies.getD j defaultRigidbody).bodyType = RigidbodyType.Static))
    (hover : IntersectAABBs (aabbOf bodies i) (aabbOf bodies j) = true) :
    (min i j, max i j) ∈ BuildPairs bodies := by
  have h2 : ¬ bodies.length < 2 := by omega
  unfold BuildPairs
  rw [if_neg h2, foldl_cells_flatten]
  set S := (gridKeys bodies).flatMap fun k =>
    if (cellOccupants bodies k).length < 2 then []
    else orderedOffsetPairs (cellOccupants bodies k) with hS
  obtain ⟨c, hci2, hcj2⟩ :=
    overlap_shared_cell hwi hwj hover
  have hiocc : i ∈ cellOccupants bodies (cellKey c) := mem_cellOccupants hi hci hci2
  have hjocc : j ∈ cellOccupants bodies (cellKey c) := mem_cellOccupants hj hcj hcj2
  have hkeymem : cellKey c ∈ gridKeys bodies := mem_gridKeys hi hci hci2
  have hlen : ¬ (cellOccupants bodies (cellKey c)).length < 2 :=
    not_length_lt_two hiocc hjocc hij
  have hoccS : (i, j) ∈ S ∨ (j, i) ∈ S := by
    rcases mem_orderedOffsetPairs_of_mem hiocc hjocc hij with hij2 | hij2
    · left
      rw [hS, List.mem_flatMap]
      exact ⟨cellKey c, hkeymem, by rw [if_neg hlen]; exact hij2⟩
    · right
      rw [hS, List.mem_flatMap]
      exact ⟨cellKey c, hkeymem, by rw [if_neg hlen]; exact hij2⟩
  have hbound : ∀ ij ∈ S, ij.1 < 2 ^ 32 ∧ ij.2 < 2 ^ 32 := by
    intro ij hij2
    rw [hS, List.mem_flatMap] at hij2
    obtain ⟨k, _, hk2⟩ := hij2
    by_cases hl : (cellOccupants bodies k).length < 2
    · rw [if_pos hl] at hk2
      cases hk2
    · rw [if_neg hl] at hk2
      obtain ⟨ha, hb⟩ := orderedOffsetPairs_subset hk2
      exact ⟨lt_of_lt_of_le (cellOccupants_lt ha) hn,
             lt_of_lt_of_le (cellOccupants_lt hb) hn⟩
  rcases le_or_lt i j with hle | hlt
  · have hmin : min i j = i := Nat.min_eq_left hle
    have hmax : max i j = j := Nat.max_eq_right hle
    rw [hmin, hmax]
    exact foldl_complete bodies i j hle
      (lt_of_lt_of_le hi hn) (lt_of_lt_of_le hj hn) hstat hover S ⟨[], []⟩
      hbound hoccS (by simp)
  · have hle2 : j ≤ i := le_of_lt hlt
    have hmin : min i j = j := Nat.min_eq_right hle2
    have hmax : max i j = i := Nat.max_eq_left hle2
    rw [hmin, hmax]
    refine foldl_complete bodies j i hle2
      (lt_of_lt_of_le hj hn) (lt_of_lt_of_le hi hn)
      (fun hc => hstat ⟨hc.2, hc.1⟩)
      (by rw [intersectAABBs_comm]; exact hover) S ⟨[], []⟩
      hbound ?_ (by simp)
    tauto

/-- Counterexample to C1 as stated: a static cannon (`shape::Canon`) and a
dynamic box overlap and are not a static-static pair — eligible by the
claim's definition — yet `BuildPairs` returns no pair at all, because cannon
bodies are excluded from the grid outright. -/
theorem buildPairs_claim_counterexample :
    ¬(cCanonBody.bodyType = RigidbodyType.Static ∧
      cDynOverlap.bodyType = RigidbodyType.Static) ∧
    IntersectAABBs (aabbOf [cCanonBody, cDynOverlap] 0)
      (aabbOf [cCanonBody, cDynOverlap] 1) = true ∧
    BuildPairs [cCanonBody, cDynOverlap] = [] := by
  have hkeys : gridKeys [cCanonBody, cDynOverlap] = [cellKey (0, 0)] := by
    unfold gridKeys
    norm_num [List.range_succ, collidableBody, cCanonBody, cDynOverlap,
      defaultRigidbody, aabbOf, cellsOfAABB, cellSize, intRange,
      List.dedup_cons_of_not_mem, (show ShapeTag.box ≠ ShapeTag.canon by decide)]
  have hocc : cellOccupants [cCanonBody, cDynOverlap] (cellKey (0, 0)) = [1] := by
    unfold cellOccupants
    norm_num [List.range_succ, collidableBody, cCanonBody, cDynOverlap,
      defaultRigidbody, aabbOf, cellsOfAABB, cellSize, intRange,
      (show ShapeTag.box ≠ ShapeTag.canon by decide)]
  refine ⟨by decide, ?_, ?_⟩
  · norm_num [IntersectAABBs, aabbOf, cCanonBody, cDynOverlap, defaultRigidbody]
  · unfold BuildPairs
    rw [if_neg (by simp), hkeys, List.foldl_cons, List.foldl_nil, hocc]
    unfold processCell
    rw [if_pos (by simp)]

/-- Witness for `buildPairs_complete`: two overlapping dynamic boxes yield
their canonical pair. -/
theorem buildPairs_complete_witness :
    (0, 1) ∈ BuildPairs [cDynA, cDynOverlap] := by
  have h := buildPairs_complete [cDynA, cDynOverlap] 0 1
    (by norm_num) (by norm_num) (by norm_num) (by norm_num)
    (by norm_num [wellFormedAABB, aabbOf, cDynA, defaultRigidbody])
    (by norm_num [wellFormedAABB, aabbOf, cDynOverlap, defaultRigidbody])
    (by decide) (by decide) (by decide)
    (by norm_num [IntersectAABBs, aabbOf, cDynA, cDynOverlap, defaultRigidbody])
  simpa using h

lemma lengthSquared_neg (v : Vec2) :
    Vec2.lengthSquared v.neg = Vec2.lengthSquared v := by
  simp only [Vec2.lengthSquared, Vec2.neg]
  ring

lemma normalizeWith_unit_or_zero (v : Vec2) (len : ℚ) (h0 : 0 ≤ len)
    (h1 : len * len = v.lengthSquared) :
    Vec2.lengthSquared (v.normalizeWith len) = 1 ∨ v.normalizeWith len = ⟨0, 0⟩ := by
  unfold Vec2.normalizeWith
  split_ifs with h
  · right
    rfl
  · left
    simp only [Vec2.lengthSquared] at h1 ⊢
    field_simp
    linarith [h1]

lemma fallback_axis_unit (dir : Vec2) (len : ℚ) (h0 : 0 ≤ len)
    (h1 : len * len = dir.lengthSquared) :
    Vec2.lengthSquared
      (if NearlyEqualVec dir ⟨0, 0⟩ then ⟨1, 0⟩ else dir.normalizeWith len) = 1 := by
  split_ifs with h
  · norm_num [Vec2.lengthSquared]
  · have hne : len ≠ 0 := by
      intro h2
      rw [h2] at h1
      apply h
      simp only [Vec2.lengthSquared] at h1
      have hx : dir.x = 0 := by nlinarith [sq_nonneg dir.x, sq_nonneg dir.y]
      have hy : dir.y = 0 := by nlinarith [sq_nonneg dir.x, sq_nonneg dir.y]
      simp [NearlyEqualVec, NearlyEqual, hx, hy, kEpsilon]
    unfold Vec2.normalizeWith
    rw [if_neg hne]
    simp only [Vec2.lengthSquared] at h1 ⊢
    field_simp
    linarith [h1]

lemma closestVertexAxis_unit (circleCenter : Vec2) (vertices : List Vec2)
    (closestLen : ℚ) (h0 : 0 ≤ closestLen)
    (h1 : closestLen * closestLen =
      Vec2.lengthSquared ((vertices.getD
        (FindClosestPointOnPolygon circleCenter vertices).toNat ⟨0, 0⟩).sub
          circleCenter)) :
    Vec2.lengthSquared (closestVertexAxis circleCenter vertices closestLen) = 1 := by
  unfold closestVertexAxis
  exact fallback_axis_unit _ closestLen h0 h1

lemma foldl_zero_axis : ∀ rest : List Vec2,
    rest.foldl
      (fun r u =>
        (⟨min r.min (Vec2.dot u ⟨0, 0⟩), max r.max (Vec2.dot u ⟨0, 0⟩)⟩ :
          ProjectionRange))
      ⟨0, 0⟩ = ⟨0, 0⟩
  | [] => rfl
  | u :: us => by
    rw [List.foldl_cons]
    have hstep :
        (⟨min (⟨0, 0⟩ : ProjectionRange).min (Vec2.dot u ⟨0, 0⟩),
          max (⟨0, 0⟩ : ProjectionRange).max (Vec2.dot u ⟨0, 0⟩)⟩ :
          ProjectionRange) = ⟨0, 0⟩ := by
      simp [Vec2.dot]
    rw [hstep]
    exact foldl_zero_axis us

lemma projectVertices_zero_axis (v : Vec2) (rest : List Vec2) :
    ProjectVertices (v :: rest) ⟨0, 0⟩ = some ⟨0, 0⟩ := by
  have hstart : (⟨Vec2.dot v ⟨0, 0⟩, Vec2.dot v ⟨0, 0⟩⟩ : ProjectionRange) = ⟨0, 0⟩ := by
    simp [Vec2.dot]
  show some
    (rest.foldl
      (fun r u =>
        (⟨min r.min (Vec2.dot u ⟨0, 0⟩), max r.max (Vec2.dot u ⟨0, 0⟩)⟩ :
          ProjectionRange))
      ⟨Vec2.dot v ⟨0, 0⟩, Vec2.dot v ⟨0, 0⟩⟩) = some ⟨0, 0⟩
  rw [hstart, foldl_zero_axis]

lemma projectCircle_zero_axis (center : Vec2) (radius : ℚ) :
    ProjectCircle center radius ⟨0, 0⟩ = ⟨0, 0⟩ := by
  unfold ProjectCircle
  simp [Vec2.smul, Vec2.add, Vec2.sub, Vec2.dot]

lemma satAxes_zero_axis (cc : Vec2) (cr : ℚ) (v : Vec2) (rest : List Vec2)
    (axes : List Vec2) (acc : Option ℚ × Vec2) :
    satAxes cc cr (v :: rest) (⟨0, 0⟩ :: axes) acc = none := by
  unfold satAxes
  rw [projectVertices_zero_axis, projectCircle_zero_axis]
  simp

lemma satUpdate_isSome (acc : Option ℚ × Vec2) (d : ℚ) (axis : Vec2) :
    (satUpdate acc d axis).1.isSome = true := by
  unfold satUpdate
  cases h1 : acc.1 with
  | none => rfl
  | some m =>
    show (if d < m then ((some d : Option ℚ), axis) else acc).1.isSome = true
    split_ifs with hlt
    · rfl
    · rw [h1]
      rfl

lemma satUpdate_unit (acc : Option ℚ × Vec2) (d : ℚ) (axis : Vec2)
    (haxu : Vec2.lengthSquared axis = 1)
    (hacc : acc.1.isSome = true → Vec2.lengthSquared acc.2 = 1) :
    Vec2.lengthSquared (satUpdate acc d axis).2 = 1 := by
  unfold satUpdate
  cases h1 : acc.1 with
  | none => exact haxu
  | some m =>
    show Vec2.lengthSquared (if d < m then ((some d : Option ℚ), axis) else acc).2 = 1
    split_ifs with hlt
    · exact haxu
    · exact hacc (by rw [h1]; rfl)

lemma satAxes_cons (cc : Vec2) (cr : ℚ) (v0 : Vec2) (vrest : List Vec2)
    (axis : Vec2) (rest : List Vec2) (acc : Option ℚ × Vec2) :
    satAxes cc cr (v0 :: vrest) (axis :: rest) acc =
      if (ProjectCircle cc cr axis).max ≤ (projAOf (v0 :: vrest) axis).min ∨
         (projAOf (v0 :: vrest) axis).max ≤ (ProjectCircle cc cr axis).min then
        none
      else
        satAxes cc cr (v0 :: vrest) rest
          (satUpdate acc
            (min ((ProjectCircle cc cr axis).max - (projAOf (v0 :: vrest) axis).min)
                 ((projAOf (v0 :: vrest) axis).max - (ProjectCircle cc cr axis).min))
            axis) :=
  rfl

lemma satAxes_some_unit (cc : Vec2) (cr : ℚ) (v0 : Vec2) (vrest : List Vec2) :
    ∀ (axes : List Vec2) (acc : Option ℚ × Vec2),
      (∀ ax ∈ axes, Vec2.lengthSquared ax = 1 ∨ ax = ⟨0, 0⟩) →
      (acc.1.isSome = true → Vec2.lengthSquared acc.2 = 1) →
      ∀ res, satAxes cc cr (v0 :: vrest) axes acc = some res →
        ((res.1.isSome = true → Vec2.lengthSquared res.2 = 1) ∧
         (acc.1.isSome = true → res.1.isSome = true) ∧
         (axes ≠ [] → res.1.isSome = true)) := by
  intro axes
  induction axes with
  | nil =>
    intro acc _ hacc res hres
    unfold satAxes at hres
    rw [Option.some_inj] at hres
    subst hres
    exact ⟨hacc, fun h => h, fun h => absurd rfl h⟩
  | cons axis axes' ih =>
    intro acc hax hacc res hres
    by_cases hz : axis = ⟨0, 0⟩
    · subst hz
      rw [satAxes_zero_axis] at hres
      cases hres
    · have haxu : Vec2.lengthSquared axis = 1 :=
        (hax axis (List.mem_cons_self _ _)).resolve_right hz
      rw [satAxes_cons] at hres
      split_ifs at hres with hsep
      obtain ⟨g1, g2, _⟩ :=
        ih _ (fun ax hx => hax ax (List.mem_cons_of_mem _ hx))
          (fun _ => satUpdate_unit acc _ axis haxu hacc) res hres
      exact ⟨g1, fun _ => g2 (satUpdate_isSome acc _ axis),
             fun _ => g2 (satUpdate_isSome acc _ axis)⟩

/-- C10: in `IntersectCirclePolygon`, when the closest polygon vertex
coincides with the circle center the candidate axis falls back to (1,0)
instead of normalizing a zero-length vector; whenever the test reports a
collision its normal is an exact unit vector; and `IntersectCircles`
likewise returns the unit fallback (1,0) for coincident centers. -/
theorem intersectCirclePolygon_degenerate_axis_safe
    (circleCenter polygonCenter : Vec2) (circleRadius : ℚ)
    (vertices : List Vec2) (edgeLens : List ℚ) (closestLen : ℚ)
    (centerA : Vec2) (radiusA radiusB : ℚ)
    (hv : vertices ≠ [])
    (hedge : ∀ i, i < vertices.length →
      0 ≤ edgeLens.getD i 0 ∧
      edgeLens.getD i 0 * edgeLens.getD i 0 =
        Vec2.lengthSquared (edgePerp vertices i))
    (hc0 : 0 ≤ closestLen)
    (hc1 : closestLen * closestLen =
      Vec2.lengthSquared ((vertices.getD
        (FindClosestPointOnPolygon circleCenter vertices).toNat ⟨0, 0⟩).sub
          circleCenter))
    (hrad : 0 < radiusA + radiusB) :
    (vertices.getD (FindClosestPointOnPolygon circleCenter vertices).toNat ⟨0, 0⟩ =
        circleCenter →
      closestVertexAxis circleCenter vertices closestLen = ⟨1, 0⟩) ∧
    ((IntersectCirclePolygon circleCenter circleRadius polygonCenter vertices
        edgeLens closestLen).result = true →
      Vec2.lengthSquared
        (IntersectCirclePolygon circleCenter circleRadius polygonCenter vertices
          edgeLens closestLen).normal = 1) ∧
    (IntersectCircles centerA radiusA centerA radiusB 0).normal = ⟨1, 0⟩ ∧
    Vec2.lengthSquared (IntersectCircles centerA radiusA centerA radiusB 0).normal
      = 1 := by
  obtain ⟨v0, vrest, rfl⟩ : ∃ v0 vrest, vertices = v0 :: vrest := by
    cases vertices with
    | nil => exact absurd rfl hv
    | cons a l => exact ⟨a, l, rfl⟩
  refine ⟨?_, ?_, ?_⟩
  · intro hcp
    simp only [closestVertexAxis]
    rw [hcp]
    have hzero : Vec2.sub circleCenter circleCenter = ⟨0, 0⟩ := by
      simp [Vec2.sub]
    rw [hzero]
    have htrue : NearlyEqualVec ⟨0, 0⟩ ⟨0, 0⟩ = true := by
      simp [NearlyEqualVec, NearlyEqual, kEpsilon]
    rw [if_pos htrue]
  · intro hres
    have haxes : ∀ ax ∈ edgeAxes (v0 :: vrest) edgeLens ++
        [closestVertexAxis circleCenter (v0 :: vrest) closestLen],
        Vec2.lengthSquared ax = 1 ∨ ax = ⟨0, 0⟩ := by
      intro ax hax
      rcases List.mem_append.mp hax with h | h
      · unfold edgeAxes at h
        rw [List.mem_map] at h
        obtain ⟨i, hi, rfl⟩ := h
        rw [List.mem_range] at hi
        exact normalizeWith_unit_or_zero _ _ (hedge i hi).1 (hedge i hi).2
      · rw [List.mem_singleton] at h
        subst h
        exact Or.inl (closestVertexAxis_unit _ _ _ hc0 hc1)
    simp only [IntersectCirclePolygon] at hres ⊢
    cases hsat : satAxes circleCenter circleRadius (v0 :: vrest)
        (edgeAxes (v0 :: vrest) edgeLens ++
          [closestVertexAxis circleCenter (v0 :: vrest) closestLen])
        (none, ⟨0, 0⟩) with
    | none =>
      rw [hsat] at hres
      exact Bool.noConfusion hres
    | some best =>
      have hinv := satAxes_some_unit circleCenter circleRadius v0 vrest
        (edgeAxes (v0 :: vrest) edgeLens ++
          [closestVertexAxis circleCenter (v0 :: vrest) closestLen])
        (none, ⟨0, 0⟩) haxes (by simp) best hsat
      have hsome : best.1.isSome = true := hinv.2.2 (by simp)
      have hunit := hinv.1 hsome
      show Vec2.lengthSquared
        (if Vec2.dot (polygonCenter.sub circleCenter) best.2 < 0 then best.2.neg
         else best.2) = 1
      split_ifs
      · rw [lengthSquared_neg]
        exact hunit
      · exact hunit
  · have hd : Vec2.distanceSquared centerA centerA = 0 := by
      simp [Vec2.distanceSquared]
    have hcond : ¬((radiusA + radiusB) * (radiusA + radiusB) ≤
        Vec2.distanceSquared centerA centerA) := by
      rw [hd]
      push_neg
      exact mul_pos hrad hrad
    unfold IntersectCircles
    rw [if_neg hcond]
    constructor
    · show (if (0 : ℚ) < 0 then (centerA.sub centerA).smul (1 / 0) else ⟨1, 0⟩) =
        (⟨1, 0⟩ : Vec2)
      norm_num
    · show Vec2.lengthSquared
        (if (0 : ℚ) < 0 then (centerA.sub centerA).smul (1 / 0) else ⟨1, 0⟩) = 1
      norm_num [Vec2.lengthSquared]

/-- Witness for `intersectCirclePolygon_degenerate_axis_safe`: a circle
centered exactly on a vertex of the 3-4-5 triangle takes the (1,0) fallback
axis, reports a collision, and its normal is a unit vector; coincident
circle centers take the (1,0) fallback too. -/
theorem intersectCirclePolygon_degenerate_axis_safe_witness :
    closestVertexAxis ⟨0, 0⟩ [⟨0, 0⟩, ⟨3, 0⟩, ⟨0, 4⟩] 0 = ⟨1, 0⟩ ∧
    (IntersectCirclePolygon ⟨0, 0⟩ 2 ⟨1, 4 / 3⟩ [⟨0, 0⟩, ⟨3, 0⟩, ⟨0, 4⟩]
      [3, 5, 4] 0).result = true ∧
    Vec2.lengthSquared
      (IntersectCirclePolygon ⟨0, 0⟩ 2 ⟨1, 4 / 3⟩ [⟨0, 0⟩, ⟨3, 0⟩, ⟨0, 4⟩]
        [3, 5, 4] 0).normal = 1 ∧
    (IntersectCircles ⟨7, 7⟩ 3 ⟨7, 7⟩ 4 0).normal = ⟨1, 0⟩ := by
  have h := intersectCirclePolygon_degenerate_axis_safe ⟨0, 0⟩ ⟨1, 4 / 3⟩ 2
    [⟨0, 0⟩, ⟨3, 0⟩, ⟨0, 4⟩] [3, 5, 4] 0 ⟨7, 7⟩ 3 4
    (by simp)
    (by
      intro i hi
      simp only [List.length_cons, List.length_nil] at hi
      interval_cases i <;>
        norm_num [edgePerp, Vec2.lengthSquared, Vec2.sub])
    le_rfl
    (by norm_num [FindClosestPointOnPolygon, closestSearch, Vec2.distanceSquared,
      Vec2.lengthSquared, Vec2.sub])
    (by norm_num)
  have hres : (IntersectCirclePolygon ⟨0, 0⟩ 2 ⟨1, 4 / 3⟩ [⟨0, 0⟩, ⟨3, 0⟩, ⟨0, 4⟩]
      [3, 5, 4] 0).result = true := by
    norm_num [IntersectCirclePolygon, edgeAxes, edgePerp, closestVertexAxis,
      FindClosestPointOnPolygon, closestSearch, satAxes, satUpdate,
      ProjectVertices, ProjectCircle, Vec2.normalizeWith, NearlyEqualVec,
      NearlyEqual, kEpsilon, Vec2.dot, Vec2.sub, Vec2.add, Vec2.smul, Vec2.neg,
      min_def, max_def, List.range_succ, Vec2.distanceSquared]
  refine ⟨h.1 ?_, hres, h.2.1 hres, h.2.2.1⟩
  norm_num [FindClosestPointOnPolygon, closestSearch, Vec2.distanceSquared]

end Fizix
